import Mathlib

/-!
Verification of the interactive raster transform and overlay geometry engine
of the img-tools repository (crop, watermark, mask/mosaic pages plus the
shared canvas image viewer). Numbers that the TypeScript source manipulates
with ordinary arithmetic (+ - * /) are modelled as rationals; the JavaScript
integer-producing primitives Math.round, Math.trunc and the remainder
operator % are modelled explicitly below.
-/

set_option autoImplicit false
set_option linter.unusedVariables false
set_option maxHeartbeats 800000

namespace ImgTools

/-- JavaScript Math.round: round half toward positive infinity. -/
def jsRound (q : ℚ) : ℤ := ⌊q + 1/2⌋

/-- JavaScript Math.trunc: round toward zero. -/
def jsTrunc (q : ℚ) : ℤ := if 0 ≤ q then ⌊q⌋ else ⌈q⌉

/-- JavaScript remainder a % b (sign of the dividend, truncated division). -/
def jsRem (a b : ℚ) : ℚ := a - b * ((jsTrunc (a / b) : ℤ) : ℚ)

/-- The four rotation states 0 / 90 / 180 / 270 degrees. -/
inductive Rot
| r0
| r90
| r180
| r270
  deriving DecidableEq, Repr

/-- A point with rational coordinates. -/
structure Pt where
  x : ℚ
  y : ℚ
  deriving DecidableEq, Repr

/-- CanvasImageViewerViewState from the shared viewer component. -/
structure ViewState where
  containerWidth : ℚ
  containerHeight : ℚ
  rotation : Rot
  imageWidth : ℚ
  imageHeight : ℚ
  effectiveWidth : ℚ
  effectiveHeight : ℚ
  boxX : ℚ
  boxY : ℚ
  boxW : ℚ
  boxH : ℚ
  deriving DecidableEq, Repr

namespace Viewer

/-- isQuarterTurn: rotation is 90 or 270 (the viewer computes r === 90 || r === 270). -/
def isQuarterTurn : Rot → Bool
  | .r90 => true
  | .r270 => true
  | _ => false

/-- effectiveW as computed in the viewer draw function: swap at quarter turns. -/
def effectiveW (r : Rot) (imageWidth imageHeight : ℚ) : ℚ :=
  if isQuarterTurn r then imageHeight else imageWidth

/-- effectiveH as computed in the viewer draw function: swap at quarter turns. -/
def effectiveH (r : Rot) (imageWidth imageHeight : ℚ) : ℚ :=
  if isQuarterTurn r then imageWidth else imageHeight

/-- Result record of fitContainWithPadding. -/
structure FitResult where
  x : ℚ
  y : ℚ
  w : ℚ
  h : ℚ
  scale : ℚ
  deriving DecidableEq, Repr

/-- fitContainWithPadding from the shared viewer: contain-fit the image inside the
container minus a fixed padding on every side (all call sites pass padding = 20). -/
def fitContainWithPadding (imgWidth imgHeight containerWidth containerHeight padding : ℚ) :
    FitResult :=
  let availableWidth := containerWidth - padding * 2
  let availableHeight := containerHeight - padding * 2
  let scale := min (availableWidth / imgWidth) (availableHeight / imgHeight)
  let w := imgWidth * scale
  let h := imgHeight * scale
  let x := (containerWidth - w) / 2
  let y := (containerHeight - h) / 2
  ⟨x, y, w, h, scale⟩

/-- The view-state snapshot computed by the viewer draw function: effective size,
base contain fit, then the box scaled by zoom, re-centered and shifted by pan. -/
def computeViewState (imageWidth imageHeight width height : ℚ) (r : Rot)
    (zoom panX panY : ℚ) : ViewState :=
  let effW := effectiveW r imageWidth imageHeight
  let effH := effectiveH r imageWidth imageHeight
  let base := fitContainWithPadding effW effH width height 20
  let boxW := base.w * zoom
  let boxH := base.h * zoom
  let x := base.x + (base.w - boxW) / 2 + panX
  let y := base.y + (base.h - boxH) / 2 + panY
  { containerWidth := width
    containerHeight := height
    rotation := r
    imageWidth := imageWidth
    imageHeight := imageHeight
    effectiveWidth := effW
    effectiveHeight := effH
    boxX := x
    boxY := y
    boxW := boxW
    boxH := boxH }

/-- The base contain fit both the draw function and the wheel handler compute
for the rotation-adjusted size with padding 20. -/
def baseFit (imageWidth imageHeight cw ch : ℚ) (r : Rot) : FitResult :=
  fitContainWithPadding (effectiveW r imageWidth imageHeight)
    (effectiveH r imageWidth imageHeight) cw ch 20

/-- Result of one wheel-zoom step: the new zoom and the new pan. -/
structure WheelResult where
  zoom : ℚ
  panX : ℚ
  panY : ℚ
  deriving DecidableEq, Repr

/-- handleWheel from the shared viewer: recompute the box for the current zoom and
pan, take the cursor-relative position on the box, step the zoom by 1.05 (clamped
to the range 0.1 to 10), and solve the new pan so the same relative position stays
under the cursor. zoomingIn is the sign test e.deltaY < 0. -/
def handleWheel (imageWidth imageHeight rectW rectH mouseX mouseY : ℚ) (r : Rot)
    (currentZoom currentPanX currentPanY : ℚ) (zoomingIn : Bool) : WheelResult :=
  let effW := effectiveW r imageWidth imageHeight
  let effH := effectiveH r imageWidth imageHeight
  let base := fitContainWithPadding effW effH rectW rectH 20
  let boxW := base.w * currentZoom
  let boxH := base.h * currentZoom
  let imgX := base.x + (base.w - boxW) / 2 + currentPanX
  let imgY := base.y + (base.h - boxH) / 2 + currentPanY
  let relativeX := (mouseX - imgX) / boxW
  let relativeY := (mouseY - imgY) / boxH
  let step : ℚ := 105 / 100
  let nextZoom := if zoomingIn then currentZoom * step else currentZoom / step
  let newZoom := max (1/10) (min 10 nextZoom)
  let newBoxW := base.w * newZoom
  let newBoxH := base.h * newZoom
  let newImgX := base.x + (base.w - newBoxW) / 2
  let newImgY := base.y + (base.h - newBoxH) / 2
  let newPanX := mouseX - newImgX - relativeX * newBoxW
  let newPanY := mouseY - newImgY - relativeY * newBoxH
  ⟨newZoom, newPanX, newPanY⟩

end Viewer

namespace Crop

/-- clamp from ImageCropPage.tsx: Math.max(min, Math.min(max, v)). -/
def clamp (v lo hi : ℚ) : ℚ := max lo (min hi v)

/-- MIN_SIZE from ImageCropPage.tsx. -/
def MIN_SIZE : ℚ := 24

/-- CropRect: a rectangle in some pixel space. -/
structure CropRect where
  x : ℚ
  y : ℚ
  w : ℚ
  h : ℚ
  deriving DecidableEq, Repr

/-- rectNormalize from ImageCropPage.tsx: sort the two corners so w and h
come out nonnegative. -/
def rectNormalize (r : CropRect) : CropRect :=
  let x1 := min r.x (r.x + r.w)
  let y1 := min r.y (r.y + r.h)
  let x2 := max r.x (r.x + r.w)
  let y2 := max r.y (r.y + r.h)
  ⟨x1, y1, x2 - x1, y2 - y1⟩

/-- pointOriginalToEffective from ImageCropPage.tsx. -/
def pointOriginalToEffective (x y : ℚ) (rotation : Rot) (origW origH : ℚ) : Pt :=
  match rotation with
  | .r0 => ⟨x, y⟩
  | .r90 => ⟨origH - y, x⟩
  | .r180 => ⟨origW - x, origH - y⟩
  | .r270 => ⟨y, origW - x⟩

/-- pointEffectiveToOriginal from ImageCropPage.tsx. -/
def pointEffectiveToOriginal (x y : ℚ) (rotation : Rot) (origW origH : ℚ) : Pt :=
  match rotation with
  | .r0 => ⟨x, y⟩
  | .r90 => ⟨y, origH - x⟩
  | .r180 => ⟨origW - x, origH - y⟩
  | .r270 => ⟨origW - y, x⟩

/-- rectOriginalToEffective from ImageCropPage.tsx: map the four corners and
take the axis-aligned bounding box. -/
def rectOriginalToEffective (r : CropRect) (v : ViewState) : CropRect :=
  let a := pointOriginalToEffective r.x r.y v.rotation v.imageWidth v.imageHeight
  let b := pointOriginalToEffective (r.x + r.w) r.y v.rotation v.imageWidth v.imageHeight
  let c := pointOriginalToEffective r.x (r.y + r.h) v.rotation v.imageWidth v.imageHeight
  let d := pointOriginalToEffective (r.x + r.w) (r.y + r.h) v.rotation v.imageWidth v.imageHeight
  let minX := min (min a.x b.x) (min c.x d.x)
  let minY := min (min a.y b.y) (min c.y d.y)
  let maxX := max (max a.x b.x) (max c.x d.x)
  let maxY := max (max a.y b.y) (max c.y d.y)
  ⟨minX, minY, maxX - minX, maxY - minY⟩

/-- rectEffectiveToOriginal from ImageCropPage.tsx: map the four corners and
take the axis-aligned bounding box. -/
def rectEffectiveToOriginal (r : CropRect) (v : ViewState) : CropRect :=
  let a := pointEffectiveToOriginal r.x r.y v.rotation v.imageWidth v.imageHeight
  let b := pointEffectiveToOriginal (r.x + r.w) r.y v.rotation v.imageWidth v.imageHeight
  let c := pointEffectiveToOriginal r.x (r.y + r.h) v.rotation v.imageWidth v.imageHeight
  let d := pointEffectiveToOriginal (r.x + r.w) (r.y + r.h) v.rotation v.imageWidth v.imageHeight
  let minX := min (min a.x b.x) (min c.x d.x)
  let minY := min (min a.y b.y) (min c.y d.y)
  let maxX := max (max a.x b.x) (max c.x d.x)
  let maxY := max (max a.y b.y) (max c.y d.y)
  ⟨minX, minY, maxX - minX, maxY - minY⟩

/-- clampEffectiveRect from ImageCropPage.tsx: normalize, clamp the sides to
MIN_SIZE and the effective size, then clamp the position into the remaining room. -/
def clampEffectiveRect (r : CropRect) (v : ViewState) : CropRect :=
  let sw := v.effectiveWidth
  let sh := v.effectiveHeight
  let rr := rectNormalize r
  let w := clamp rr.w MIN_SIZE sw
  let h := clamp rr.h MIN_SIZE sh
  let x := clamp rr.x 0 (sw - w)
  let y := clamp rr.y 0 (sh - h)
  ⟨x, y, w, h⟩

/-- The nine drag handles of the crop overlay. -/
inductive Handle
| move
| n
| s
| e
| w
| ne
| nw
| se
| sw
  deriving DecidableEq, Repr

/-- applyRatio from ImageCropPage.tsx: reshape the rect so w = h * ratio,
keeping the center (edge handles) or the opposite corner (corner handles) fixed. -/
def applyRatio (r : CropRect) (handle : Handle) (ratio : ℚ) : CropRect :=
  let rn := rectNormalize r
  if rn.w ≤ 0 ∨ rn.h ≤ 0 then rn
  else
    let cx := rn.x + rn.w / 2
    let cy := rn.y + rn.h / 2
    let wantW := rn.h * ratio
    let wantH := rn.w / ratio
    let adjustByWidth := |rn.w - wantW| < |rn.h - wantH|
    let cornerW := if adjustByWidth then rn.h * ratio else rn.w
    let cornerH := if adjustByWidth then rn.h else rn.w / ratio
    match handle with
    | .move => rn
    | .n => ⟨cx - (rn.h * ratio) / 2, rn.y, rn.h * ratio, rn.h⟩
    | .s => ⟨cx - (rn.h * ratio) / 2, rn.y, rn.h * ratio, rn.h⟩
    | .e => ⟨rn.x, cy - (rn.w / ratio) / 2, rn.w, rn.w / ratio⟩
    | .w => ⟨rn.x, cy - (rn.w / ratio) / 2, rn.w, rn.w / ratio⟩
    | .se => ⟨rn.x, rn.y, cornerW, cornerH⟩
    | .sw => ⟨rn.x + (rn.w - cornerW), rn.y, cornerW, cornerH⟩
    | .ne => ⟨rn.x, rn.y + (rn.h - cornerH), cornerW, cornerH⟩
    | .nw => ⟨rn.x + (rn.w - cornerW), rn.y + (rn.h - cornerH), cornerW, cornerH⟩

/-- screenToEffectivePoint from ImageCropPage.tsx, with x and y already relative
to the overlay root element. -/
def screenToEffectivePoint (x y : ℚ) (v : ViewState) : Pt :=
  ⟨(x - v.boxX) / v.boxW * v.effectiveWidth,
   (y - v.boxY) / v.boxH * v.effectiveHeight⟩

/-- One pointer-move event of an active crop drag: the polled view state, the
dragged handle, the pointer position at drag start and now (root-relative
screen coordinates), the Shift key state and the ratio of the active crop mode
(none in free mode, 1 in circular mode). -/
structure DragInput where
  view : ViewState
  handle : Handle
  startX : ℚ
  startY : ℚ
  clientX : ℚ
  clientY : ℚ
  shiftKey : Bool
  modeRatio : Option ℚ
  deriving DecidableEq, Repr

/-- The switch statement of onMove: apply the pointer delta to the rect bounds
according to the dragged handle. -/
def handleDelta (r0 : CropRect) (handle : Handle) (dx dy : ℚ) : CropRect :=
  match handle with
  | .move => ⟨r0.x + dx, r0.y + dy, r0.w, r0.h⟩
  | .e => ⟨r0.x, r0.y, r0.w + dx, r0.h⟩
  | .w => ⟨r0.x + dx, r0.y, r0.w - dx, r0.h⟩
  | .s => ⟨r0.x, r0.y, r0.w, r0.h + dy⟩
  | .n => ⟨r0.x, r0.y + dy, r0.w, r0.h - dy⟩
  | .se => ⟨r0.x, r0.y, r0.w + dx, r0.h + dy⟩
  | .sw => ⟨r0.x + dx, r0.y, r0.w - dx, r0.h + dy⟩
  | .ne => ⟨r0.x, r0.y + dy, r0.w + dx, r0.h - dy⟩
  | .nw => ⟨r0.x + dx, r0.y + dy, r0.w - dx, r0.h - dy⟩

/-- The rect captured at drag start: the current rect mapped to effective space
and clamped (startDrag in ImageCropPage.tsx). -/
def dragStartEff (rect : CropRect) (inp : DragInput) : CropRect :=
  clampEffectiveRect (rectOriginalToEffective rect inp.view) inp.view

/-- The rect after the handle delta of the current pointer position is applied
to the drag-start rect (first half of onMove). -/
def dragNext (rect : CropRect) (inp : DragInput) : CropRect :=
  let startEff := dragStartEff rect inp
  let startPt := screenToEffectivePoint inp.startX inp.startY inp.view
  let pt := screenToEffectivePoint inp.clientX inp.clientY inp.view
  handleDelta startEff inp.handle (pt.x - startPt.x) (pt.y - startPt.y)

/-- The rect after the optional ratio constraint of onMove: the mode ratio if
present, else the drag-start ratio while Shift is held; a ratio of 0 is falsy
in the source and applies no constraint. -/
def dragNextRatio (rect : CropRect) (inp : DragInput) : CropRect :=
  let startEff := dragStartEff rect inp
  let startRatio : Option ℚ :=
    if 0 < startEff.h then some (startEff.w / startEff.h) else none
  let shiftRatio : Option ℚ := if inp.shiftKey then startRatio else none
  let ratioToApply : Option ℚ :=
    match inp.modeRatio with
    | some q => some q
    | none => shiftRatio
  match ratioToApply with
  | some q =>
      if q ≠ 0 ∧ inp.handle ≠ Handle.move then applyRatio (dragNext rect inp) inp.handle q
      else dragNext rect inp
  | none => dragNext rect inp

/-- onMove from ImageCropPage.tsx, from the current rect in original pixel
space to the rect passed to onRectChange: handle delta, optional ratio
constraint, clamp in effective space, map back to original space, normalize,
and clamp against the image size. -/
def onMoveRect (rect : CropRect) (inp : DragInput) (imageWidth imageHeight : ℚ) : CropRect :=
  let next := clampEffectiveRect (dragNextRatio rect inp) inp.view
  let orig := rectNormalize (rectEffectiveToOriginal next inp.view)
  ⟨clamp orig.x 0 (imageWidth - MIN_SIZE),
   clamp orig.y 0 (imageHeight - MIN_SIZE),
   clamp orig.w MIN_SIZE imageWidth,
   clamp orig.h MIN_SIZE imageHeight⟩

/-- The crop rect invariant of the specification, in original pixel space. -/
def RectInv (r : CropRect) (imageWidth imageHeight : ℚ) : Prop :=
  0 ≤ r.x ∧ 0 ≤ r.y ∧ r.x + r.w ≤ imageWidth ∧ r.y + r.h ≤ imageHeight
    ∧ MIN_SIZE ≤ r.w ∧ MIN_SIZE ≤ r.h

instance (r : CropRect) (imageWidth imageHeight : ℚ) :
    Decidable (RectInv r imageWidth imageHeight) := by
  unfold RectInv; infer_instance

/-- The rect invariant in effective space. -/
def EffInv (r : CropRect) (v : ViewState) : Prop :=
  0 ≤ r.x ∧ 0 ≤ r.y ∧ r.x + r.w ≤ v.effectiveWidth ∧ r.y + r.h ≤ v.effectiveHeight
    ∧ MIN_SIZE ≤ r.w ∧ MIN_SIZE ≤ r.h

instance (r : CropRect) (v : ViewState) : Decidable (EffInv r v) := by
  unfold EffInv; infer_instance

/-- A view state polled by the crop overlay is consistent with the image it
shows: the image size fields match and the effective size is the image size
with width and height swapped at quarter turns, exactly as the viewer draw
function records them. -/
def ViewConsistent (v : ViewState) (imageWidth imageHeight : ℚ) : Prop :=
  v.imageWidth = imageWidth ∧ v.imageHeight = imageHeight
    ∧ v.effectiveWidth = Viewer.effectiveW v.rotation imageWidth imageHeight
    ∧ v.effectiveHeight = Viewer.effectiveH v.rotation imageWidth imageHeight

instance (v : ViewState) (imageWidth imageHeight : ℚ) :
    Decidable (ViewConsistent v imageWidth imageHeight) := by
  unfold ViewConsistent; infer_instance

end Crop

/-- Concrete view state used by the C3 witness: 140 by 140 container, 100 by
100 image, no rotation, box covering the unit-scale image. -/
def c3View : ViewState :=
  { containerWidth := 140, containerHeight := 140, rotation := Rot.r0,
    imageWidth := 100, imageHeight := 100,
    effectiveWidth := 100, effectiveHeight := 100,
    boxX := 0, boxY := 0, boxW := 100, boxH := 100 }

/-- Concrete drag event used by the C3 witness: a southeast-corner drag. -/
def c3Inp : Crop.DragInput :=
  { view := c3View, handle := Crop.Handle.se, startX := 50, startY := 50,
    clientX := 80, clientY := 60, shiftKey := false, modeRatio := none }

/-- Concrete view state used by the C4 theorems: 140 by 140 container, 100 by
100 image, no rotation, box covering the unit-scale image. -/
def c4View : ViewState :=
  { containerWidth := 140, containerHeight := 140, rotation := Rot.r0,
    imageWidth := 100, imageHeight := 100,
    effectiveWidth := 100, effectiveHeight := 100,
    boxX := 0, boxY := 0, boxW := 100, boxH := 100 }

/-- Concrete drag event refuting C4 as stated: an east-edge drag far to the
right with a 4:1 fixed ratio, so the ratio-adjusted rect overflows the image
and the bounds clamp reshapes it. -/
def c4BadInp : Crop.DragInput :=
  { view := c4View, handle := Crop.Handle.e, startX := 0, startY := 0,
    clientX := 400, clientY := 0, shiftKey := false, modeRatio := some 4 }

/-- Concrete drag event for the C4 amended witness: a southeast-corner drag in
circular mode (ratio 1) staying inside the image bounds. -/
def c4GoodInp : Crop.DragInput :=
  { view := c4View, handle := Crop.Handle.se, startX := 48, startY := 48,
    clientX := 72, clientY := 72, shiftKey := false, modeRatio := some 1 }

namespace Watermark

/-- clamp from ImageWatermarkPage.tsx: Math.min(max, Math.max(min, value)). -/
def clamp (value lo hi : ℚ) : ℚ := min hi (max lo value)

/-- toImagePoint from ImageWatermarkPage.tsx: screen point to original pixel
point through the current view box, null outside the box, clamped into the
image bounds otherwise. -/
def toImagePoint (x y : ℚ) (view : ViewState) : Option Pt :=
  let rx := (x - view.boxX) / view.boxW
  let ry := (y - view.boxY) / view.boxH
  if rx < 0 ∨ 1 < rx ∨ ry < 0 ∨ 1 < ry then none
  else
    let ex := rx * view.effectiveWidth
    let ey := ry * view.effectiveHeight
    let p : Pt :=
      match view.rotation with
      | .r0 => ⟨ex, ey⟩
      | .r90 => ⟨ey, view.imageHeight - ex⟩
      | .r180 => ⟨view.imageWidth - ex, view.imageHeight - ey⟩
      | .r270 => ⟨view.imageWidth - ey, ex⟩
    some ⟨clamp p.x 0 view.imageWidth, clamp p.y 0 view.imageHeight⟩

/-- wrapSigned from ImageWatermarkPage.tsx: fold a value into one period,
recentering the remainder around zero. -/
def wrapSigned (value period : ℚ) : ℚ :=
  if period ≤ 0 then value
  else
    let v0 := jsRem value period
    let v1 := if period / 2 < v0 then v0 - period else v0
    if v1 < -(period / 2) then v1 + period else v1

/-- The rule-selection step of buildAllExports in ImageWatermarkPage.tsx for
one image id: the broadcast appliedRule if set; otherwise the per-image cache
overlaid with the active image current rule; otherwise the active rule. -/
def exportRuleForItem {α : Type} (appliedRule : Option α)
    (perImageRule : List (String × α)) (activeId : Option String)
    (activeRule : α) (itemId : String) : α :=
  match appliedRule with
  | some r => r
  | none =>
      let cached :=
        if activeId = some itemId then some activeRule
        else perImageRule.lookup itemId
      cached.getD activeRule

end Watermark

namespace Mosaic

/-- clamp from ImageMosaicPage.tsx: Math.min(max, Math.max(min, value)). -/
def clamp (value lo hi : ℚ) : ℚ := min hi (max lo value)

/-- toImagePoint from ImageMosaicPage.tsx (same body as the watermark copy). -/
def toImagePoint (x y : ℚ) (view : ViewState) : Option Pt :=
  let rx := (x - view.boxX) / view.boxW
  let ry := (y - view.boxY) / view.boxH
  if rx < 0 ∨ 1 < rx ∨ ry < 0 ∨ 1 < ry then none
  else
    let ex := rx * view.effectiveWidth
    let ey := ry * view.effectiveHeight
    let p : Pt :=
      match view.rotation with
      | .r0 => ⟨ex, ey⟩
      | .r90 => ⟨ey, view.imageHeight - ex⟩
      | .r180 => ⟨view.imageWidth - ex, view.imageHeight - ey⟩
      | .r270 => ⟨view.imageWidth - ey, ex⟩
    some ⟨clamp p.x 0 view.imageWidth, clamp p.y 0 view.imageHeight⟩

/-- getBlockSize from ImageMosaicPage.tsx: strength to mosaic block size. -/
def getBlockSize (strength : ℚ) : ℚ := max 4 ((jsRound (strength / 2) : ℤ) : ℚ)

/-- The downsample-then-upsample plan of the mosaic effect: the small surface
dimensions and the image-smoothing switches of the small and full contexts. -/
structure MosaicPlan where
  smallW : ℚ
  smallH : ℚ
  smallSmoothing : Bool
  effectSmoothing : Bool
  deriving DecidableEq, Repr

/-- The mosaic branch of rebuildEffectCanvas in ImageMosaicPage.tsx: small
surface of max(1, round(dimension / blockSize)) cells, drawn and scaled back
with image smoothing disabled on both contexts. -/
def rebuildEffectPlan (naturalWidth naturalHeight mosaicBlockSize : ℚ) : MosaicPlan :=
  { smallW := max 1 ((jsRound (naturalWidth / mosaicBlockSize) : ℤ) : ℚ)
    smallH := max 1 ((jsRound (naturalHeight / mosaicBlockSize) : ℤ) : ℚ)
    smallSmoothing := false
    effectSmoothing := false }

/-- The mosaic branch of exportOne in ImageMosaicPage.tsx: block size from the
saved strength, then the same small surface and smoothing switches. -/
def exportMosaicPlan (width height strength : ℚ) : MosaicPlan :=
  let block := getBlockSize strength
  { smallW := max 1 ((jsRound (width / block) : ℤ) : ℚ)
    smallH := max 1 ((jsRound (height / block) : ℤ) : ℚ)
    smallSmoothing := false
    effectSmoothing := false }

/-- MosaicEffect: the two effect kinds of the mask tool. -/
inductive MosaicEffect
| mosaic
| blur
  deriving DecidableEq, Repr

/-- MosaicMode: the two paint tools of the mask tool. -/
inductive MosaicMode
| brush
| rect
  deriving DecidableEq, Repr

/-- PerImageState from ImageMosaicPage.tsx; the mask pixel buffer is kept
abstract as a byte list. -/
structure PerImageState where
  effectType : MosaicEffect
  strength : ℚ
  blurStrength : ℚ
  brushSize : ℚ
  mode : MosaicMode
  maskData : Option (List ℕ)
  maskWidth : ℚ
  maskHeight : ℚ
  deriving DecidableEq, Repr

/-- The broadcast rule stored by setAppliedRule in ImageMosaicPage.tsx. -/
structure AppliedMosaicRule where
  effectType : MosaicEffect
  strength : ℚ
  blurStrength : ℚ
  brushSize : ℚ
  mode : MosaicMode
  deriving DecidableEq, Repr

/-- getStateForExport from ImageMosaicPage.tsx: per-image cache entry first,
else the broadcast rule without mask, else the current panel parameters. -/
def getStateForExport (cache : List (String × PerImageState))
    (appliedRule : Option AppliedMosaicRule) (effectType : MosaicEffect)
    (strength blurStrength brushSize : ℚ) (mode : MosaicMode)
    (id : String) : PerImageState :=
  match cache.lookup id with
  | some cached => cached
  | none =>
      match appliedRule with
      | some rule =>
          { effectType := rule.effectType, strength := rule.strength,
            blurStrength := rule.blurStrength, brushSize := rule.brushSize,
            mode := rule.mode, maskData := none, maskWidth := 0, maskHeight := 0 }
      | none =>
          { effectType := effectType, strength := strength,
            blurStrength := blurStrength, brushSize := brushSize,
            mode := mode, maskData := none, maskWidth := 0, maskHeight := 0 }

end Mosaic

/-- Concrete view state used by the C10 witness: image box from (10, 10) to
(110, 110) showing a 50 by 50 image rotated by 90 degrees. -/
def c10View : ViewState :=
  { containerWidth := 140, containerHeight := 140, rotation := Rot.r90,
    imageWidth := 50, imageHeight := 50,
    effectiveWidth := 50, effectiveHeight := 50,
    boxX := 10, boxY := 10, boxW := 100, boxH := 100 }

/-- ImageInfo from shared image.ts. -/
structure ImageInfo where
  url : String
  width : ℚ
  height : ℚ
  name : String
  deriving DecidableEq, Repr

/-- ImageItem from shared useImageItems: a stable id with its image info. -/
structure ImageItem where
  id : String
  info : ImageInfo
  deriving DecidableEq, Repr

/-- removeOne from shared useImageItems: drop the item with the given id from
the list and move the active id to the first remaining item when the removed
item was active. It touches nothing but the item list and the active id. -/
def removeOne (items : List ImageItem) (activeId : String) (id : String) :
    List ImageItem × String :=
  let nextIds := (items.filter (fun x => !(x.id == id))).map (fun x => x.id)
  let newActive := if activeId == id then nextIds.headD "" else activeId
  (items.filter (fun x => !(x.id == id)), newActive)

/-- Erasure of one key of a string-keyed cache, as the JavaScript delete
operator leaves a record. -/
def removeKey {α : Type} (cache : List (String × α)) (id : String) :
    List (String × α) :=
  cache.filter (fun p => !(p.1 == id))

namespace Crop

/-- AppliedCropRule from ImageCropPage.tsx: a crop rule normalized to
fractions of the image size, with optional circle-mode center and size. -/
structure AppliedCropRule where
  modeValue : String
  customRatioW : Option ℚ
  customRatioH : Option ℚ
  rectX : ℚ
  rectY : ℚ
  rectW : ℚ
  rectH : ℚ
  rectCx : Option ℚ
  rectCy : Option ℚ
  rectSize : Option ℚ
  deriving DecidableEq, Repr

/-- SavedCropState from ImageCropPage.tsx: the cached per-image crop state. -/
structure SavedCropState where
  modeValue : String
  customRatioW : Option ℚ
  customRatioH : Option ℚ
  rect : CropRect
  deriving DecidableEq, Repr

/-- clampInt from ImageCropPage.tsx: truncate toward zero and clamp. -/
def clampInt (v lo hi : ℚ) : ℚ := min hi (max lo ((jsTrunc v : ℤ) : ℚ))

/-- clampRect from ImageCropPage.tsx: clamp a rect to integer coordinates
inside an image of the given size. -/
def clampRect (r : CropRect) (maxW maxH : ℚ) : CropRect :=
  let x := clampInt r.x 0 (max 0 (maxW - 1))
  let y := clampInt r.y 0 (max 0 (maxH - 1))
  let w := clampInt r.w 1 (max 1 (maxW - x))
  let h := clampInt r.h 1 (max 1 (maxH - y))
  ⟨x, y, w, h⟩

/-- initRect from ImageCropPage.tsx: the default centered rect at 80 percent
of each dimension, at least 48 on each side, clamped into the image. -/
def initRect (maxW maxH : ℚ) : CropRect :=
  let inset : ℚ := 1/10
  let w := max 48 ((jsRound (maxW * (1 - inset * 2)) : ℤ) : ℚ)
  let h := max 48 ((jsRound (maxH * (1 - inset * 2)) : ℤ) : ℚ)
  let x := ((jsRound ((maxW - w) / 2) : ℤ) : ℚ)
  let y := ((jsRound ((maxH - h) / 2) : ℤ) : ℚ)
  clampRect ⟨x, y, w, h⟩ maxW maxH

/-- buildRuleFromCurrent from ImageCropPage.tsx: null without an active image,
else the current rect normalized against the active image size; safeW and
safeH guard a zero size with the JavaScript or-with-1 idiom. -/
def buildRuleFromCurrent (info : Option ImageInfo) (rect : CropRect)
    (modeValue : String) (customRatioW customRatioH : Option ℚ) :
    Option AppliedCropRule :=
  match info with
  | none => none
  | some i =>
      let safeW := if i.width = 0 then 1 else i.width
      let safeH := if i.height = 0 then 1 else i.height
      let r := clampRect rect i.width i.height
      if modeValue == "circle" then
        let minEdge := max 1 (min safeW safeH)
        some { modeValue := modeValue, customRatioW := customRatioW,
               customRatioH := customRatioH,
               rectX := r.x / safeW, rectY := r.y / safeH,
               rectW := r.w / safeW, rectH := r.h / safeH,
               rectCx := some ((r.x + r.w / 2) / safeW),
               rectCy := some ((r.y + r.h / 2) / safeH),
               rectSize := some (min r.w r.h / minEdge) }
      else
        some { modeValue := modeValue, customRatioW := customRatioW,
               customRatioH := customRatioH,
               rectX := r.x / safeW, rectY := r.y / safeH,
               rectW := r.w / safeW, rectH := r.h / safeH,
               rectCx := none, rectCy := none, rectSize := none }

/-- buildStateFromRule from ImageCropPage.tsx: expand a normalized rule
against a target image size, with the circle branch when the rule carries
center and size fractions. -/
def buildStateFromRule (rule : AppliedCropRule) (targetInfo : ImageInfo) :
    SavedCropState :=
  match rule.modeValue == "circle", rule.rectCx, rule.rectCy, rule.rectSize with
  | true, some cx, some cy, some sz =>
      let minEdge := max 1 (min targetInfo.width targetInfo.height)
      let size := max 1 ((jsRound (sz * minEdge) : ℤ) : ℚ)
      let x := ((jsRound (cx * targetInfo.width - size / 2) : ℤ) : ℚ)
      let y := ((jsRound (cy * targetInfo.height - size / 2) : ℤ) : ℚ)
      { modeValue := rule.modeValue, customRatioW := rule.customRatioW,
        customRatioH := rule.customRatioH,
        rect := clampRect ⟨x, y, size, size⟩ targetInfo.width targetInfo.height }
  | _, _, _, _ =>
      { modeValue := rule.modeValue, customRatioW := rule.customRatioW,
        customRatioH := rule.customRatioH,
        rect := clampRect
          ⟨((jsRound (rule.rectX * targetInfo.width) : ℤ) : ℚ),
           ((jsRound (rule.rectY * targetInfo.height) : ℤ) : ℚ),
           ((jsRound (rule.rectW * targetInfo.width) : ℤ) : ℚ),
           ((jsRound (rule.rectH * targetInfo.height) : ℤ) : ℚ)⟩
          targetInfo.width targetInfo.height }

/-- getStateForItem from ImageCropPage.tsx: per-image cache entry first, else
the broadcast rule or a rule built from the current editing state, else the
fresh centered default. -/
def getStateForItem (cache : List (String × SavedCropState))
    (appliedRule : Option AppliedCropRule) (currentInfo : Option ImageInfo)
    (currentRect : CropRect) (modeValue : String)
    (customRatioW customRatioH : Option ℚ) (it : ImageItem) : SavedCropState :=
  match cache.lookup it.id with
  | some cached => cached
  | none =>
      match
        (match appliedRule with
         | some r => some r
         | none => buildRuleFromCurrent currentInfo currentRect modeValue
             customRatioW customRatioH) with
      | some rule => buildStateFromRule rule it.info
      | none =>
          { modeValue := "free", customRatioW := none, customRatioH := none,
            rect := initRect it.info.width it.info.height }

/-- The crop page images.onRemove handler: it only calls removeOne and leaves
the per-image crop cache as it is. -/
def onRemoveCrop (cache : List (String × SavedCropState))
    (items : List ImageItem) (activeId : String) (id : String) :
    List (String × SavedCropState) × List ImageItem × String :=
  (cache, (removeOne items activeId id).1, (removeOne items activeId id).2)

end Crop

namespace Watermark

/-- AppliedRule of ImageWatermarkPage.tsx, kept abstract: only its identity
matters for rule resolution and cache lifecycle. -/
structure AppliedRule where
  tag : ℕ
  deriving DecidableEq, Repr

/-- The watermark page images.onRemove handler: it is the bare removeOne and
leaves the per-image rule cache as it is. -/
def onRemoveWatermark (cache : List (String × AppliedRule))
    (items : List ImageItem) (activeId : String) (id : String) :
    List (String × AppliedRule) × List ImageItem × String :=
  (cache, (removeOne items activeId id).1, (removeOne items activeId id).2)

end Watermark

namespace Mosaic

/-- The mosaic page images.onRemove handler: delete the per-image cache entry
of the removed id, then removeOne. -/
def onRemoveMosaic (cache : List (String × PerImageState))
    (items : List ImageItem) (activeId : String) (id : String) :
    List (String × PerImageState) × List ImageItem × String :=
  (removeKey cache id, (removeOne items activeId id).1, (removeOne items activeId id).2)

end Mosaic

namespace Viewer

/-- Unfolding equation: the box x position computed by the draw function. -/
theorem computeViewState_boxX (iw ih cw ch : ℚ) (r : Rot) (z px py : ℚ) :
    (computeViewState iw ih cw ch r z px py).boxX
      = (baseFit iw ih cw ch r).x
        + ((baseFit iw ih cw ch r).w - (baseFit iw ih cw ch r).w * z) / 2 + px := rfl

/-- Unfolding equation: the box y position computed by the draw function. -/
theorem computeViewState_boxY (iw ih cw ch : ℚ) (r : Rot) (z px py : ℚ) :
    (computeViewState iw ih cw ch r z px py).boxY
      = (baseFit iw ih cw ch r).y
        + ((baseFit iw ih cw ch r).h - (baseFit iw ih cw ch r).h * z) / 2 + py := rfl

/-- Unfolding equation: the box width computed by the draw function. -/
theorem computeViewState_boxW (iw ih cw ch : ℚ) (r : Rot) (z px py : ℚ) :
    (computeViewState iw ih cw ch r z px py).boxW = (baseFit iw ih cw ch r).w * z := rfl

/-- Unfolding equation: the box height computed by the draw function. -/
theorem computeViewState_boxH (iw ih cw ch : ℚ) (r : Rot) (z px py : ℚ) :
    (computeViewState iw ih cw ch r z px py).boxH = (baseFit iw ih cw ch r).h * z := rfl

/-- Unfolding equation: the effective width recorded in the view state. -/
theorem computeViewState_effW (iw ih cw ch : ℚ) (r : Rot) (z px py : ℚ) :
    (computeViewState iw ih cw ch r z px py).effectiveWidth = effectiveW r iw ih := rfl

/-- Unfolding equation: the effective height recorded in the view state. -/
theorem computeViewState_effH (iw ih cw ch : ℚ) (r : Rot) (z px py : ℚ) :
    (computeViewState iw ih cw ch r z px py).effectiveHeight = effectiveH r iw ih := rfl

/-- Unfolding equation: the zoom produced by one wheel step. -/
theorem handleWheel_zoom (iw ih rw rh mx my : ℚ) (r : Rot) (z px py : ℚ) (d : Bool) :
    (handleWheel iw ih rw rh mx my r z px py d).zoom
      = max (1/10) (min 10 (if d then z * (105/100) else z / (105/100))) := rfl

/-- Unfolding equation: the new pan x produced by one wheel step. -/
theorem handleWheel_panX (iw ih rw rh mx my : ℚ) (r : Rot) (z px py : ℚ) (d : Bool) :
    (handleWheel iw ih rw rh mx my r z px py d).panX
      = mx - ((baseFit iw ih rw rh r).x
              + ((baseFit iw ih rw rh r).w
                  - (baseFit iw ih rw rh r).w
                      * max (1/10) (min 10 (if d then z * (105/100) else z / (105/100)))) / 2)
          - (mx - ((baseFit iw ih rw rh r).x
                    + ((baseFit iw ih rw rh r).w - (baseFit iw ih rw rh r).w * z) / 2 + px))
              / ((baseFit iw ih rw rh r).w * z)
              * ((baseFit iw ih rw rh r).w
                  * max (1/10) (min 10 (if d then z * (105/100) else z / (105/100)))) := rfl

/-- Unfolding equation: the new pan y produced by one wheel step. -/
theorem handleWheel_panY (iw ih rw rh mx my : ℚ) (r : Rot) (z px py : ℚ) (d : Bool) :
    (handleWheel iw ih rw rh mx my r z px py d).panY
      = my - ((baseFit iw ih rw rh r).y
              + ((baseFit iw ih rw rh r).h
                  - (baseFit iw ih rw rh r).h
                      * max (1/10) (min 10 (if d then z * (105/100) else z / (105/100)))) / 2)
          - (my - ((baseFit iw ih rw rh r).y
                    + ((baseFit iw ih rw rh r).h - (baseFit iw ih rw rh r).h * z) / 2 + py))
              / ((baseFit iw ih rw rh r).h * z)
              * ((baseFit iw ih rw rh r).h
                  * max (1/10) (min 10 (if d then z * (105/100) else z / (105/100)))) := rfl

/-- The base contain fit has positive width and height when the container is
larger than the two 20 pixel paddings and the image is nonempty. -/
theorem baseFit_w_pos (iw ih cw ch : ℚ) (r : Rot)
    (hiw : 0 < iw) (hih : 0 < ih) (hcw : 40 < cw) (hch : 40 < ch) :
    0 < (baseFit iw ih cw ch r).w ∧ 0 < (baseFit iw ih cw ch r).h := by
  have heW : 0 < effectiveW r iw ih := by
    unfold effectiveW; cases r <;> simp [isQuarterTurn] <;> linarith
  have heH : 0 < effectiveH r iw ih := by
    unfold effectiveH; cases r <;> simp [isQuarterTurn] <;> linarith
  have hsc : 0 < min ((cw - 20 * 2) / effectiveW r iw ih)
      ((ch - 20 * 2) / effectiveH r iw ih) := by
    apply lt_min <;> apply div_pos <;> linarith
  constructor
  · exact mul_pos heW hsc
  · exact mul_pos heH hsc

end Viewer

namespace Crop

theorem clamp_lo (v lo hi : ℚ) : lo ≤ clamp v lo hi := le_max_left _ _

theorem clamp_hi (v lo hi : ℚ) (h : lo ≤ hi) : clamp v lo hi ≤ hi :=
  max_le h (min_le_left _ _)

theorem clamp_eq_self (v lo hi : ℚ) (h1 : lo ≤ v) (h2 : v ≤ hi) : clamp v lo hi = v := by
  unfold clamp
  rw [min_eq_right h2, max_eq_right h1]

theorem rectNormalize_eq_self (r : CropRect) (hw : 0 ≤ r.w) (hh : 0 ≤ r.h) :
    rectNormalize r = r := by
  obtain ⟨x, y, w, h⟩ := r
  dsimp only at hw hh
  unfold rectNormalize
  dsimp only
  rw [min_eq_left (by linarith), min_eq_left (by linarith),
    max_eq_right (by linarith), max_eq_right (by linarith)]
  have h3 : x + w - x = w := by ring
  have h4 : y + h - y = h := by ring
  rw [h3, h4]

/-- The output of clampEffectiveRect always satisfies the effective-space
invariant, whatever rect goes in, as soon as the effective size is at least
MIN_SIZE in both directions. -/
theorem clampEffectiveRect_inv (r : CropRect) (v : ViewState)
    (hw : MIN_SIZE ≤ v.effectiveWidth) (hh : MIN_SIZE ≤ v.effectiveHeight) :
    EffInv (clampEffectiveRect r v) v := by
  unfold clampEffectiveRect EffInv
  dsimp only
  set rr := rectNormalize r
  have hw1 : MIN_SIZE ≤ clamp rr.w MIN_SIZE v.effectiveWidth := clamp_lo _ _ _
  have hw2 : clamp rr.w MIN_SIZE v.effectiveWidth ≤ v.effectiveWidth := clamp_hi _ _ _ hw
  have hh1 : MIN_SIZE ≤ clamp rr.h MIN_SIZE v.effectiveHeight := clamp_lo _ _ _
  have hh2 : clamp rr.h MIN_SIZE v.effectiveHeight ≤ v.effectiveHeight := clamp_hi _ _ _ hh
  have hx1 : (0:ℚ) ≤ clamp rr.x 0 (v.effectiveWidth - clamp rr.w MIN_SIZE v.effectiveWidth) :=
    clamp_lo _ _ _
  have hx2 : clamp rr.x 0 (v.effectiveWidth - clamp rr.w MIN_SIZE v.effectiveWidth)
      ≤ v.effectiveWidth - clamp rr.w MIN_SIZE v.effectiveWidth :=
    clamp_hi _ _ _ (by linarith)
  have hy1 : (0:ℚ) ≤ clamp rr.y 0 (v.effectiveHeight - clamp rr.h MIN_SIZE v.effectiveHeight) :=
    clamp_lo _ _ _
  have hy2 : clamp rr.y 0 (v.effectiveHeight - clamp rr.h MIN_SIZE v.effectiveHeight)
      ≤ v.effectiveHeight - clamp rr.h MIN_SIZE v.effectiveHeight :=
    clamp_hi _ _ _ (by linarith)
  exact ⟨hx1, hy1, by linarith, by linarith, hw1, hh1⟩

theorem rectE2O_nonneg (e : CropRect) (v : ViewState) :
    0 ≤ (rectEffectiveToOriginal e v).w ∧ 0 ≤ (rectEffectiveToOriginal e v).h := by
  unfold rectEffectiveToOriginal
  dsimp only
  constructor <;> rw [sub_nonneg] <;>
    exact le_trans (le_trans (min_le_left _ _) (min_le_left _ _))
      (le_trans (le_max_left _ _) (le_max_left _ _))

/-- Mapping a rect that satisfies the effective-space invariant back to
original pixel space (corner mapping, bounding box, normalize) yields a rect
satisfying the original-space invariant, for every rotation. -/
theorem rectE2O_inv (e : CropRect) (v : ViewState) (iw ih : ℚ)
    (hvc : ViewConsistent v iw ih) (he : EffInv e v) :
    RectInv (rectNormalize (rectEffectiveToOriginal e v)) iw ih := by
  obtain ⟨hiw, hih, heW, heH⟩ := hvc
  obtain ⟨hex, hey, hexw, heyh, hew, heh⟩ := he
  have hnn := rectE2O_nonneg e v
  rw [rectNormalize_eq_self _ hnn.1 hnn.2]
  have hms : (0:ℚ) < MIN_SIZE := by norm_num [MIN_SIZE]
  have hw0 : (0:ℚ) ≤ e.w := by linarith
  have hh0 : (0:ℚ) ≤ e.h := by linarith
  rw [heW] at hexw
  rw [heH] at heyh
  unfold rectEffectiveToOriginal pointEffectiveToOriginal RectInv
  cases hrot : v.rotation
  case r0 =>
    rw [hrot] at hexw heyh
    simp [Viewer.effectiveW, Viewer.effectiveH, Viewer.isQuarterTurn] at hexw heyh
    dsimp only
    simp only [min_self, max_self, hiw, hih]
    rw [min_eq_left (by linarith : e.x ≤ e.x + e.w),
      min_eq_left (by linarith : e.y ≤ e.y + e.h),
      max_eq_right (by linarith : e.x ≤ e.x + e.w),
      max_eq_right (by linarith : e.y ≤ e.y + e.h)]
    refine ⟨by linarith, by linarith, by linarith, by linarith, by linarith, by linarith⟩
  case r90 =>
    rw [hrot] at hexw heyh
    simp [Viewer.effectiveW, Viewer.effectiveH, Viewer.isQuarterTurn] at hexw heyh
    dsimp only
    simp only [min_self, max_self, hiw, hih]
    rw [min_eq_left (by linarith : e.y ≤ e.y + e.h),
      max_eq_right (by linarith : e.y ≤ e.y + e.h),
      min_eq_right (by linarith : ih - (e.x + e.w) ≤ ih - e.x),
      max_eq_left (by linarith : ih - (e.x + e.w) ≤ ih - e.x)]
    refine ⟨by linarith, by linarith, by linarith, by linarith, by linarith, by linarith⟩
  case r180 =>
    rw [hrot] at hexw heyh
    simp [Viewer.effectiveW, Viewer.effectiveH, Viewer.isQuarterTurn] at hexw heyh
    dsimp only
    simp only [min_self, max_self, hiw, hih]
    rw [min_eq_right (by linarith : iw - (e.x + e.w) ≤ iw - e.x),
      max_eq_left (by linarith : iw - (e.x + e.w) ≤ iw - e.x),
      min_eq_right (by linarith : ih - (e.y + e.h) ≤ ih - e.y),
      max_eq_left (by linarith : ih - (e.y + e.h) ≤ ih - e.y)]
    refine ⟨by linarith, by linarith, by linarith, by linarith, by linarith, by linarith⟩
  case r270 =>
    rw [hrot] at hexw heyh
    simp [Viewer.effectiveW, Viewer.effectiveH, Viewer.isQuarterTurn] at hexw heyh
    dsimp only
    simp only [min_self, max_self, hiw, hih]
    rw [min_eq_right (by linarith : iw - (e.y + e.h) ≤ iw - e.y),
      max_eq_left (by linarith : iw - (e.y + e.h) ≤ iw - e.y),
      min_eq_left (by linarith : e.x ≤ e.x + e.w),
      max_eq_right (by linarith : e.x ≤ e.x + e.w)]
    refine ⟨by linarith, by linarith, by linarith, by linarith, by linarith, by linarith⟩

/-- One pointer-move step of a crop drag always hands a rect satisfying the
original-space invariant to onRectChange, whatever rect it starts from. -/
theorem onMoveRect_inv (rect : CropRect) (inp : DragInput) (iw ih : ℚ)
    (h24w : 24 ≤ iw) (h24h : 24 ≤ ih) (hvc : ViewConsistent inp.view iw ih) :
    RectInv (onMoveRect rect inp iw ih) iw ih := by
  have hms : MIN_SIZE = (24:ℚ) := rfl
  have hW : MIN_SIZE ≤ inp.view.effectiveWidth := by
    rw [hvc.2.2.1, hms]
    unfold Viewer.effectiveW
    cases inp.view.rotation <;> simp [Viewer.isQuarterTurn] <;> linarith
  have hH : MIN_SIZE ≤ inp.view.effectiveHeight := by
    rw [hvc.2.2.2, hms]
    unfold Viewer.effectiveH
    cases inp.view.rotation <;> simp [Viewer.isQuarterTurn] <;> linarith
  have heff := clampEffectiveRect_inv (dragNextRatio rect inp) inp.view hW hH
  have horig := rectE2O_inv _ inp.view iw ih hvc heff
  obtain ⟨h1, h2, h3, h4, h5, h6⟩ := horig
  unfold onMoveRect
  set o := rectNormalize
    (rectEffectiveToOriginal (clampEffectiveRect (dragNextRatio rect inp) inp.view) inp.view)
  have hx : clamp o.x 0 (iw - MIN_SIZE) = o.x := clamp_eq_self _ _ _ h1 (by linarith)
  have hy : clamp o.y 0 (ih - MIN_SIZE) = o.y := clamp_eq_self _ _ _ h2 (by linarith)
  have hw : clamp o.w MIN_SIZE iw = o.w := clamp_eq_self _ _ _ h5 (by linarith)
  have hh : clamp o.h MIN_SIZE ih = o.h := clamp_eq_self _ _ _ h6 (by linarith)
  unfold RectInv
  dsimp only
  rw [hx, hy, hw, hh]
  exact ⟨h1, h2, h3, h4, h5, h6⟩

end Crop

/-- jsTrunc facts on nonnegative rationals: the truncation stays between zero
and the value, and above every integer bound below the value. -/
theorem jsTrunc_nonneg_le (q : ℚ) (h : 0 ≤ q) :
    0 ≤ ((jsTrunc q : ℤ) : ℚ) ∧ ((jsTrunc q : ℤ) : ℚ) ≤ q := by
  unfold jsTrunc
  rw [if_pos h]
  constructor
  · exact_mod_cast Int.floor_nonneg.mpr h
  · exact Int.floor_le q

/-- A rational at least 24 truncates to at least 24. -/
theorem jsTrunc_ge_24 (q : ℚ) (h : 24 ≤ q) :
    (24:ℚ) ≤ ((jsTrunc q : ℤ) : ℚ) := by
  unfold jsTrunc
  rw [if_pos (by linarith)]
  exact_mod_cast Int.le_floor.mpr (by exact_mod_cast h)

/-- The clampRect applied by the onRectChange handler preserves the rect
invariant on an image at least 24 pixels in each direction. -/
theorem Crop.clampRect_inv (r : Crop.CropRect) (maxW maxH : ℚ)
    (h24w : 24 ≤ maxW) (h24h : 24 ≤ maxH) (hr : Crop.RectInv r maxW maxH) :
    Crop.RectInv (Crop.clampRect r maxW maxH) maxW maxH := by
  obtain ⟨h1, h2, h3, h4, h5, h6⟩ := hr
  have hms : Crop.MIN_SIZE = (24:ℚ) := rfl
  rw [hms] at h5 h6
  obtain ⟨htx0, htxle⟩ := jsTrunc_nonneg_le r.x h1
  obtain ⟨hty0, htyle⟩ := jsTrunc_nonneg_le r.y h2
  have htw24 := jsTrunc_ge_24 r.w h5
  have hth24 := jsTrunc_ge_24 r.h h6
  obtain ⟨_, htwle⟩ := jsTrunc_nonneg_le r.w (by linarith)
  obtain ⟨_, hthle⟩ := jsTrunc_nonneg_le r.h (by linarith)
  unfold Crop.clampRect Crop.clampInt
  dsimp only
  rw [max_eq_right htx0, max_eq_right hty0,
    min_eq_right (le_trans (by linarith) (le_max_right (0:ℚ) (maxW - 1))),
    min_eq_right (le_trans (by linarith) (le_max_right (0:ℚ) (maxH - 1)))]
  rw [max_eq_right (by linarith : (1:ℚ) ≤ ((jsTrunc r.w : ℤ) : ℚ)),
    max_eq_right (by linarith : (1:ℚ) ≤ ((jsTrunc r.h : ℤ) : ℚ)),
    max_eq_right (by linarith : (1:ℚ) ≤ maxW - ((jsTrunc r.x : ℤ) : ℚ)),
    max_eq_right (by linarith : (1:ℚ) ≤ maxH - ((jsTrunc r.y : ℤ) : ℚ))]
  refine ⟨htx0, hty0, ?_, ?_, ?_, ?_⟩
  · dsimp only
    linarith [min_le_left (maxW - ((jsTrunc r.x : ℤ) : ℚ)) ((jsTrunc r.w : ℤ) : ℚ)]
  · dsimp only
    linarith [min_le_left (maxH - ((jsTrunc r.y : ℤ) : ℚ)) ((jsTrunc r.h : ℤ) : ℚ)]
  · rw [hms]
    exact le_min (by linarith) htw24
  · rw [hms]
    exact le_min (by linarith) hth24

/-- C3: on an image at least 24 pixels in each direction, after any nonempty
sequence of crop handle drag moves (move, edge or corner handles, with or
without a ratio constraint), each stored through the clampRect of the
onRectChange handler, the crop rect in original pixel space satisfies
x at least 0, y at least 0, x + w at most the image width, y + h at most the
image height, and both sides at least MIN_SIZE = 24. -/
theorem cropDrag_sequence_invariant (iw ih : ℚ) (h24w : 24 ≤ iw) (h24h : 24 ≤ ih)
    (inputs : List Crop.DragInput) (hne : inputs ≠ [])
    (hwf : ∀ inp ∈ inputs, Crop.ViewConsistent inp.view iw ih) (r0 : Crop.CropRect) :
    Crop.RectInv
      (inputs.foldl (fun r inp => Crop.clampRect (Crop.onMoveRect r inp iw ih) iw ih) r0)
      iw ih := by
  induction inputs generalizing r0 with
  | nil => exact absurd rfl hne
  | cons a t ih2 =>
    cases t with
    | nil =>
      simp only [List.foldl]
      exact Crop.clampRect_inv _ iw ih h24w h24h
        (Crop.onMoveRect_inv r0 a iw ih h24w h24h (hwf a (by simp)))
    | cons b t2 =>
      simp only [List.foldl]
      have := ih2 (by simp) (fun inp hm => hwf inp (List.mem_cons_of_mem a hm))
        (Crop.clampRect (Crop.onMoveRect r0 a iw ih) iw ih)
      simpa [List.foldl] using this

/-- Closed witness for the C3 theorem: a single southeast-corner drag on a
100 by 100 image seen unrotated, starting from a degenerate zero rect. -/
theorem cropDrag_sequence_invariant_witness :
    ((24:ℚ) ≤ 100 ∧ ([c3Inp] : List Crop.DragInput) ≠ []
      ∧ (∀ inp ∈ ([c3Inp] : List Crop.DragInput), Crop.ViewConsistent inp.view 100 100)) ∧
    Crop.RectInv
      (([c3Inp] : List Crop.DragInput).foldl
        (fun r inp => Crop.clampRect (Crop.onMoveRect r inp 100 100) 100 100)
        ⟨0, 0, 0, 0⟩) 100 100 := by
  have hvc : ∀ inp ∈ ([c3Inp] : List Crop.DragInput), Crop.ViewConsistent inp.view 100 100 := by
    intro inp hm
    simp only [List.mem_singleton] at hm
    subst hm
    refine ⟨rfl, rfl, ?_, ?_⟩
    · norm_num [c3Inp, c3View, Viewer.effectiveW, Viewer.isQuarterTurn]
    · norm_num [c3Inp, c3View, Viewer.effectiveH, Viewer.isQuarterTurn]
  refine ⟨⟨by norm_num, by simp, hvc⟩, ?_⟩
  exact cropDrag_sequence_invariant 100 100 (by norm_num) (by norm_num) [c3Inp] (by simp) hvc
    ⟨0, 0, 0, 0⟩

/-- C1: for every rotation in {0, 90, 180, 270} and every point inside the image
bounds, pointOriginalToEffective and pointEffectiveToOriginal are exact mutual
inverses, with no tolerance. -/
theorem pointMaps_round_trip (r : Rot) (px py W H : ℚ)
    (hx0 : 0 ≤ px) (hxW : px ≤ W) (hy0 : 0 ≤ py) (hyH : py ≤ H) :
    (Crop.pointEffectiveToOriginal (Crop.pointOriginalToEffective px py r W H).x
      (Crop.pointOriginalToEffective px py r W H).y r W H = ⟨px, py⟩) ∧
    (Crop.pointOriginalToEffective (Crop.pointEffectiveToOriginal px py r W H).x
      (Crop.pointEffectiveToOriginal px py r W H).y r W H = ⟨px, py⟩) := by
  cases r <;>
    simp only [Crop.pointOriginalToEffective, Crop.pointEffectiveToOriginal,
      Pt.mk.injEq] <;>
    constructor <;> constructor <;> ring

/-- Closed witness for the C1 theorem at rotation 90 on a 1000 by 500 image. -/
theorem pointMaps_round_trip_witness :
    (0 ≤ (10:ℚ) ∧ (10:ℚ) ≤ 1000 ∧ 0 ≤ (20:ℚ) ∧ (20:ℚ) ≤ 500) ∧
    (Crop.pointEffectiveToOriginal
      (Crop.pointOriginalToEffective 10 20 Rot.r90 1000 500).x
      (Crop.pointOriginalToEffective 10 20 Rot.r90 1000 500).y Rot.r90 1000 500
        = ⟨10, 20⟩) ∧
    (Crop.pointOriginalToEffective
      (Crop.pointEffectiveToOriginal 10 20 Rot.r90 1000 500).x
      (Crop.pointEffectiveToOriginal 10 20 Rot.r90 1000 500).y Rot.r90 1000 500
        = ⟨10, 20⟩) := by
  refine ⟨by norm_num, ?_, ?_⟩
  · exact (pointMaps_round_trip Rot.r90 10 20 1000 500 (by norm_num) (by norm_num)
      (by norm_num) (by norm_num)).1
  · exact (pointMaps_round_trip Rot.r90 10 20 1000 500 (by norm_num) (by norm_num)
      (by norm_num) (by norm_num)).2

/-- C9: whenever pan = (0,0), the computed view-state box is centered in the
container at every zoom level and rotation. -/
theorem viewBox_centered_at_zero_pan (imageWidth imageHeight cw ch zoom : ℚ) (r : Rot) :
    (Viewer.computeViewState imageWidth imageHeight cw ch r zoom 0 0).boxX
        = (cw - (Viewer.computeViewState imageWidth imageHeight cw ch r zoom 0 0).boxW) / 2 ∧
    (Viewer.computeViewState imageWidth imageHeight cw ch r zoom 0 0).boxY
        = (ch - (Viewer.computeViewState imageWidth imageHeight cw ch r zoom 0 0).boxH) / 2 := by
  simp only [Viewer.computeViewState, Viewer.fitContainWithPadding]
  constructor <;> ring

/-- C2: one wheel-zoom step keeps the effective-space point that was under the
cursor at the same screen position, exactly. The cursor lies over the image box,
the current zoom is in the clamp range, the container is larger than twice the
padding and the image is nonempty. The effective point under the cursor before
the step is mapped through the new box exactly back onto the cursor. -/
theorem wheel_zoom_anchor (imageWidth imageHeight rectW rectH mouseX mouseY : ℚ)
    (r : Rot) (zoom panX panY : ℚ) (zoomingIn : Bool)
    (hiw : 0 < imageWidth) (hih : 0 < imageHeight)
    (hrw : 40 < rectW) (hrh : 40 < rectH)
    (hzlo : 1/10 ≤ zoom) (hzhi : zoom ≤ 10)
    (hmx1 : (Viewer.computeViewState imageWidth imageHeight rectW rectH r zoom panX panY).boxX
              ≤ mouseX)
    (hmx2 : mouseX ≤ (Viewer.computeViewState imageWidth imageHeight rectW rectH r zoom panX panY).boxX
              + (Viewer.computeViewState imageWidth imageHeight rectW rectH r zoom panX panY).boxW)
    (hmy1 : (Viewer.computeViewState imageWidth imageHeight rectW rectH r zoom panX panY).boxY
              ≤ mouseY)
    (hmy2 : mouseY ≤ (Viewer.computeViewState imageWidth imageHeight rectW rectH r zoom panX panY).boxY
              + (Viewer.computeViewState imageWidth imageHeight rectW rectH r zoom panX panY).boxH) :
    (Viewer.computeViewState imageWidth imageHeight rectW rectH r
        (Viewer.handleWheel imageWidth imageHeight rectW rectH mouseX mouseY r
          zoom panX panY zoomingIn).zoom
        (Viewer.handleWheel imageWidth imageHeight rectW rectH mouseX mouseY r
          zoom panX panY zoomingIn).panX
        (Viewer.handleWheel imageWidth imageHeight rectW rectH mouseX mouseY r
          zoom panX panY zoomingIn).panY).boxX
      + ((mouseX - (Viewer.computeViewState imageWidth imageHeight rectW rectH r zoom panX panY).boxX)
          / (Viewer.computeViewState imageWidth imageHeight rectW rectH r zoom panX panY).boxW
          * (Viewer.computeViewState imageWidth imageHeight rectW rectH r zoom panX panY).effectiveWidth)
        / (Viewer.computeViewState imageWidth imageHeight rectW rectH r zoom panX panY).effectiveWidth
        * (Viewer.computeViewState imageWidth imageHeight rectW rectH r
            (Viewer.handleWheel imageWidth imageHeight rectW rectH mouseX mouseY r
              zoom panX panY zoomingIn).zoom
            (Viewer.handleWheel imageWidth imageHeight rectW rectH mouseX mouseY r
              zoom panX panY zoomingIn).panX
            (Viewer.handleWheel imageWidth imageHeight rectW rectH mouseX mouseY r
              zoom panX panY zoomingIn).panY).boxW
      = mouseX
    ∧
    (Viewer.computeViewState imageWidth imageHeight rectW rectH r
        (Viewer.handleWheel imageWidth imageHeight rectW rectH mouseX mouseY r
          zoom panX panY zoomingIn).zoom
        (Viewer.handleWheel imageWidth imageHeight rectW rectH mouseX mouseY r
          zoom panX panY zoomingIn).panX
        (Viewer.handleWheel imageWidth imageHeight rectW rectH mouseX mouseY r
          zoom panX panY zoomingIn).panY).boxY
      + ((mouseY - (Viewer.computeViewState imageWidth imageHeight rectW rectH r zoom panX panY).boxY)
          / (Viewer.computeViewState imageWidth imageHeight rectW rectH r zoom panX panY).boxH
          * (Viewer.computeViewState imageWidth imageHeight rectW rectH r zoom panX panY).effectiveHeight)
        / (Viewer.computeViewState imageWidth imageHeight rectW rectH r zoom panX panY).effectiveHeight
        * (Viewer.computeViewState imageWidth imageHeight rectW rectH r
            (Viewer.handleWheel imageWidth imageHeight rectW rectH mouseX mouseY r
              zoom panX panY zoomingIn).zoom
            (Viewer.handleWheel imageWidth imageHeight rectW rectH mouseX mouseY r
              zoom panX panY zoomingIn).panX
            (Viewer.handleWheel imageWidth imageHeight rectW rectH mouseX mouseY r
              zoom panX panY zoomingIn).panY).boxH
      = mouseY := by
  have heffW : (0:ℚ) < Viewer.effectiveW r imageWidth imageHeight := by
    unfold Viewer.effectiveW
    cases r <;> simp [Viewer.isQuarterTurn] <;> linarith
  have heffH : (0:ℚ) < Viewer.effectiveH r imageWidth imageHeight := by
    unfold Viewer.effectiveH
    cases r <;> simp [Viewer.isQuarterTurn] <;> linarith
  have hzpos : (0:ℚ) < zoom := by linarith
  have hB := Viewer.baseFit_w_pos imageWidth imageHeight rectW rectH r hiw hih hrw hrh
  have hnz : (0:ℚ) < max (1/10) (min 10 (if zoomingIn then zoom * (105/100) else zoom / (105/100))) :=
    lt_of_lt_of_le (by norm_num) (le_max_left _ _)
  rw [Viewer.computeViewState_boxX, Viewer.computeViewState_boxY,
    Viewer.computeViewState_boxW, Viewer.computeViewState_boxH,
    Viewer.computeViewState_boxX, Viewer.computeViewState_boxY,
    Viewer.computeViewState_boxW, Viewer.computeViewState_boxH,
    Viewer.computeViewState_effW, Viewer.computeViewState_effH,
    Viewer.handleWheel_zoom, Viewer.handleWheel_panX, Viewer.handleWheel_panY]
  set B := Viewer.baseFit imageWidth imageHeight rectW rectH r with hBdef
  set Z := max (1/10) (min 10 (if zoomingIn then zoom * (105/100) else zoom / (105/100))) with hZdef
  obtain ⟨hBw, hBh⟩ := hB
  constructor
  · field_simp
    ring
  · field_simp
    ring

/-- Closed witness for the C2 theorem: a 140 by 140 container, 100 by 100 image,
no rotation, zoom 1, no pan, cursor at the container center, zooming in. -/
theorem wheel_zoom_anchor_witness :
    ((0:ℚ) < 100 ∧ (40:ℚ) < 140 ∧ (1:ℚ)/10 ≤ 1 ∧ (1:ℚ) ≤ 10
      ∧ (Viewer.computeViewState 100 100 140 140 Rot.r0 1 0 0).boxX ≤ 70
      ∧ (70:ℚ) ≤ (Viewer.computeViewState 100 100 140 140 Rot.r0 1 0 0).boxX
          + (Viewer.computeViewState 100 100 140 140 Rot.r0 1 0 0).boxW) ∧
    (Viewer.computeViewState 100 100 140 140 Rot.r0
        (Viewer.handleWheel 100 100 140 140 70 70 Rot.r0 1 0 0 true).zoom
        (Viewer.handleWheel 100 100 140 140 70 70 Rot.r0 1 0 0 true).panX
        (Viewer.handleWheel 100 100 140 140 70 70 Rot.r0 1 0 0 true).panY).boxX
      + ((70 - (Viewer.computeViewState 100 100 140 140 Rot.r0 1 0 0).boxX)
          / (Viewer.computeViewState 100 100 140 140 Rot.r0 1 0 0).boxW
          * (Viewer.computeViewState 100 100 140 140 Rot.r0 1 0 0).effectiveWidth)
        / (Viewer.computeViewState 100 100 140 140 Rot.r0 1 0 0).effectiveWidth
        * (Viewer.computeViewState 100 100 140 140 Rot.r0
            (Viewer.handleWheel 100 100 140 140 70 70 Rot.r0 1 0 0 true).zoom
            (Viewer.handleWheel 100 100 140 140 70 70 Rot.r0 1 0 0 true).panX
            (Viewer.handleWheel 100 100 140 140 70 70 Rot.r0 1 0 0 true).panY).boxW
      = 70 := by
  have hbx : (Viewer.computeViewState 100 100 140 140 Rot.r0 1 0 0).boxX = 20 := by
    norm_num [Viewer.computeViewState, Viewer.fitContainWithPadding,
      Viewer.effectiveW, Viewer.effectiveH, Viewer.isQuarterTurn]
  have hbw : (Viewer.computeViewState 100 100 140 140 Rot.r0 1 0 0).boxW = 100 := by
    norm_num [Viewer.computeViewState, Viewer.fitContainWithPadding,
      Viewer.effectiveW, Viewer.effectiveH, Viewer.isQuarterTurn]
  refine ⟨⟨by norm_num, by norm_num, by norm_num, by norm_num, ?_, ?_⟩, ?_⟩
  · rw [hbx]; norm_num
  · rw [hbx, hbw]; norm_num
  · exact (wheel_zoom_anchor 100 100 140 140 70 70 Rot.r0 1 0 0 true
      (by norm_num) (by norm_num) (by norm_num) (by norm_num) (by norm_num) (by norm_num)
      (by rw [hbx]; norm_num) (by rw [hbx, hbw]; norm_num)
      (by rw [show (Viewer.computeViewState 100 100 140 140 Rot.r0 1 0 0).boxY = 20 from by
            norm_num [Viewer.computeViewState, Viewer.fitContainWithPadding,
              Viewer.effectiveW, Viewer.effectiveH, Viewer.isQuarterTurn]]; norm_num)
      (by rw [show (Viewer.computeViewState 100 100 140 140 Rot.r0 1 0 0).boxY = 20 from by
            norm_num [Viewer.computeViewState, Viewer.fitContainWithPadding,
              Viewer.effectiveW, Viewer.effectiveH, Viewer.isQuarterTurn],
          show (Viewer.computeViewState 100 100 140 140 Rot.r0 1 0 0).boxH = 100 from by
            norm_num [Viewer.computeViewState, Viewer.fitContainWithPadding,
              Viewer.effectiveW, Viewer.effectiveH, Viewer.isQuarterTurn]]; norm_num)).1

/-- The jsTrunc of a rational differs from it by less than one. -/
theorem jsTrunc_close (q : ℚ) : |q - ((jsTrunc q : ℤ) : ℚ)| < 1 := by
  unfold jsTrunc
  split_ifs with h
  · rw [abs_lt]
    constructor
    · linarith [Int.floor_le q]
    · linarith [Int.sub_one_lt_floor q]
  · rw [abs_lt]
    constructor
    · linarith [Int.ceil_lt_add_one q]
    · linarith [Int.le_ceil q]

/-- The JavaScript remainder by a positive period is strictly between the
negated period and the period. -/
theorem jsRem_bound (v p : ℚ) (hp : 0 < p) : |jsRem v p| < p := by
  unfold jsRem
  have e : v - p * ((jsTrunc (v / p) : ℤ) : ℚ)
      = p * (v / p - ((jsTrunc (v / p) : ℤ) : ℚ)) := by
    field_simp
  rw [e, abs_mul, abs_of_pos hp]
  calc p * |v / p - ((jsTrunc (v / p) : ℤ) : ℚ)| < p * 1 :=
        mul_lt_mul_of_pos_left (jsTrunc_close (v / p)) hp
    _ = p := mul_one p

/-- C5 counterexample: at value negative 150 and period 300 the wrap returns
exactly negative 150, which is the left endpoint negative period over two, so
the wrapped value is not strictly greater than negative period over two as the
claim states. -/
theorem wrapSigned_counterexample :
    (0:ℚ) < 300 ∧ Watermark.wrapSigned (-150) 300 = -150
      ∧ ¬ (-(300/2 : ℚ) < Watermark.wrapSigned (-150) 300) := by
  have hc : (⌈(-(1 / 2) : ℚ)⌉ : ℤ) = 0 := by norm_num
  have h : Watermark.wrapSigned (-150) 300 = -150 := by
    norm_num [Watermark.wrapSigned, jsRem, jsTrunc, hc]
  refine ⟨by norm_num, h, ?_⟩
  rw [h]
  norm_num

/-- C5 amended: for every real value and positive period, wrapSigned lands in
the closed interval from negative period over two to period over two; both
endpoints are attainable, the left one for example at value negative period
over two. -/
theorem wrapSigned_range (v p : ℚ) (hp : 0 < p) :
    -(p / 2) ≤ Watermark.wrapSigned v p ∧ Watermark.wrapSigned v p ≤ p / 2 := by
  have hb := jsRem_bound v p hp
  rw [abs_lt] at hb
  unfold Watermark.wrapSigned
  rw [if_neg (not_le.mpr hp)]
  dsimp only
  split_ifs with h1 h2 h3 <;> constructor <;> linarith

/-- Closed witness for the C5 amended theorem at value 650 and period 300 (the
wrapped value is 50, as in the tile watermark drag scenario of the spec). -/
theorem wrapSigned_range_witness :
    (0:ℚ) < 300
      ∧ (-(300 / 2 : ℚ) ≤ Watermark.wrapSigned 650 300
          ∧ Watermark.wrapSigned 650 300 ≤ 300 / 2)
      ∧ Watermark.wrapSigned 650 300 = 50 :=
  ⟨by norm_num, wrapSigned_range 650 300 (by norm_num),
    by norm_num [Watermark.wrapSigned, jsRem, jsTrunc]⟩

/-- C10: the watermark and mosaic toImagePoint functions are the same map; the
map returns none exactly when the screen point lies outside the image box, and
every returned point is clamped into the image bounds. -/
theorem toImagePoint_spec (x y : ℚ) (v : ViewState)
    (hbw : 0 < v.boxW) (hbh : 0 < v.boxH)
    (hiw : 0 ≤ v.imageWidth) (hih : 0 ≤ v.imageHeight) :
    Watermark.toImagePoint x y v = Mosaic.toImagePoint x y v
  ∧ (Watermark.toImagePoint x y v = none
      ↔ ¬ (v.boxX ≤ x ∧ x ≤ v.boxX + v.boxW ∧ v.boxY ≤ y ∧ y ≤ v.boxY + v.boxH))
  ∧ (∀ p, Watermark.toImagePoint x y v = some p →
      0 ≤ p.x ∧ p.x ≤ v.imageWidth ∧ 0 ≤ p.y ∧ p.y ≤ v.imageHeight) := by
  have hx1 : ((x - v.boxX) / v.boxW < 0) ↔ x < v.boxX := by
    rw [div_lt_iff₀ hbw]
    constructor <;> intro h <;> linarith
  have hx2 : (1 < (x - v.boxX) / v.boxW) ↔ v.boxX + v.boxW < x := by
    rw [lt_div_iff₀ hbw]
    constructor <;> intro h <;> linarith
  have hy1 : ((y - v.boxY) / v.boxH < 0) ↔ y < v.boxY := by
    rw [div_lt_iff₀ hbh]
    constructor <;> intro h <;> linarith
  have hy2 : (1 < (y - v.boxY) / v.boxH) ↔ v.boxY + v.boxH < y := by
    rw [lt_div_iff₀ hbh]
    constructor <;> intro h <;> linarith
  refine ⟨rfl, ?_, ?_⟩
  · unfold Watermark.toImagePoint
    dsimp only
    split_ifs with h
    · simp only [true_iff]
      intro hin
      obtain ⟨a1, a2, a3, a4⟩ := hin
      rcases h with h | h | h | h
      · rw [hx1] at h; linarith
      · rw [hx2] at h; linarith
      · rw [hy1] at h; linarith
      · rw [hy2] at h; linarith
    · push_neg at h
      obtain ⟨b1, b2, b3, b4⟩ := h
      rw [false_iff, not_not]
      rw [div_nonneg_iff] at b1 b3
      have c1 : v.boxX ≤ x := by
        rcases b1 with ⟨h1, _⟩ | ⟨_, h2⟩
        · linarith
        · linarith
      have c3 : v.boxY ≤ y := by
        rcases b3 with ⟨h1, _⟩ | ⟨_, h2⟩
        · linarith
        · linarith
      rw [div_le_one hbw] at b2
      rw [div_le_one hbh] at b4
      exact ⟨c1, by linarith, c3, by linarith⟩
  · intro p hp
    unfold Watermark.toImagePoint at hp
    dsimp only at hp
    split_ifs at hp with h
    rw [Option.some.injEq] at hp
    subst hp
    unfold Watermark.clamp
    dsimp only
    refine ⟨?_, min_le_left _ _, ?_, min_le_left _ _⟩
    · exact le_min hiw (le_max_left _ _)
    · exact le_min hih (le_max_left _ _)

/-- Closed witness for the C10 theorem: the box from (10, 10) to (110, 110) of
a 50 by 50 image rotated 90 degrees, probed at the interior point (60, 40). -/
theorem toImagePoint_spec_witness :
    ((0:ℚ) < c10View.boxW ∧ (0:ℚ) < c10View.boxH
      ∧ (0:ℚ) ≤ c10View.imageWidth ∧ (0:ℚ) ≤ c10View.imageHeight) ∧
    (Watermark.toImagePoint 60 40 c10View = Mosaic.toImagePoint 60 40 c10View
      ∧ (Watermark.toImagePoint 60 40 c10View = none
          ↔ ¬ (c10View.boxX ≤ 60 ∧ (60:ℚ) ≤ c10View.boxX + c10View.boxW
                ∧ c10View.boxY ≤ 40 ∧ (40:ℚ) ≤ c10View.boxY + c10View.boxH))
      ∧ (∀ p, Watermark.toImagePoint 60 40 c10View = some p →
          0 ≤ p.x ∧ p.x ≤ c10View.imageWidth ∧ 0 ≤ p.y ∧ p.y ≤ c10View.imageHeight)) :=
  ⟨⟨by norm_num [c10View], by norm_num [c10View], by norm_num [c10View],
      by norm_num [c10View]⟩,
    toImagePoint_spec 60 40 c10View (by norm_num [c10View]) (by norm_num [c10View])
      (by norm_num [c10View]) (by norm_num [c10View])⟩

/-- C6 counterexample: for a 12 pixel dimension and strength 10 the block size
is 5, and both mosaic paths downsample to max(1, round(12 / 5)) = 2 cells,
while the claimed ceil(12 / 5) is 3. -/
theorem mosaic_cells_counterexample :
    Mosaic.getBlockSize 10 = 5
      ∧ (Mosaic.exportMosaicPlan 12 12 10).smallW = 2
      ∧ (Mosaic.rebuildEffectPlan 12 12 (Mosaic.getBlockSize 10)).smallW = 2
      ∧ ((⌈(12:ℚ) / Mosaic.getBlockSize 10⌉ : ℤ) : ℚ) = 3
      ∧ (Mosaic.exportMosaicPlan 12 12 10).smallW
          ≠ ((⌈(12:ℚ) / Mosaic.getBlockSize 10⌉ : ℤ) : ℚ) := by
  have hb : Mosaic.getBlockSize 10 = 5 := by
    norm_num [Mosaic.getBlockSize, jsRound]
  have hc : (⌈(12:ℚ) / 5⌉ : ℤ) = 3 := by
    rw [Int.ceil_eq_iff]
    constructor <;> norm_num
  refine ⟨hb, ?_, ?_, ?_, ?_⟩
  · norm_num [Mosaic.exportMosaicPlan, Mosaic.getBlockSize, jsRound]
  · rw [hb]
    norm_num [Mosaic.rebuildEffectPlan, jsRound]
  · rw [hb, hc]
    norm_num
  · rw [hb, hc]
    norm_num [Mosaic.exportMosaicPlan, Mosaic.getBlockSize, jsRound]

/-- C6 amended: the mosaic effect downsamples to max(1, round(dimension /
blockSize)) cells, round to nearest rather than ceil, with image smoothing
disabled on both the small and the full surface, and the export path computes
exactly the same plan as the interactive effect-surface path at the block size
derived from the saved strength. -/
theorem mosaic_cells_amended (w h strength blockSize : ℚ) :
    Mosaic.exportMosaicPlan w h strength
        = Mosaic.rebuildEffectPlan w h (Mosaic.getBlockSize strength)
      ∧ (Mosaic.rebuildEffectPlan w h blockSize).smallW
          = max 1 ((jsRound (w / blockSize) : ℤ) : ℚ)
      ∧ (Mosaic.rebuildEffectPlan w h blockSize).smallH
          = max 1 ((jsRound (h / blockSize) : ℤ) : ℚ)
      ∧ (Mosaic.rebuildEffectPlan w h blockSize).smallSmoothing = false
      ∧ (Mosaic.rebuildEffectPlan w h blockSize).effectSmoothing = false
      ∧ (Mosaic.exportMosaicPlan w h strength).smallSmoothing = false
      ∧ (Mosaic.exportMosaicPlan w h strength).effectSmoothing = false :=
  ⟨rfl, rfl, rfl, rfl, rfl, rfl, rfl⟩

/-- C7 counterexample: in the watermark batch export, when a broadcast rule is
set it is chosen for an image even though that image has its own entry in the
per-image override cache, contradicting the claimed override-first order. -/
theorem rule_resolution_counterexample :
    ([(("x" : String), (⟨2⟩ : Watermark.AppliedRule))].lookup "x"
        = some (⟨2⟩ : Watermark.AppliedRule))
      ∧ Watermark.exportRuleForItem (some (⟨1⟩ : Watermark.AppliedRule))
          [("x", ⟨2⟩)] (some "a") ⟨3⟩ "x" = ⟨1⟩
      ∧ Watermark.exportRuleForItem (some (⟨1⟩ : Watermark.AppliedRule))
          [("x", ⟨2⟩)] (some "a") ⟨3⟩ "x" ≠ ⟨2⟩ := by
  refine ⟨rfl, rfl, ?_⟩
  intro h
  simp only [Watermark.exportRuleForItem] at h
  exact absurd (congrArg Watermark.AppliedRule.tag h) (by norm_num)

/-- C7 amended: the crop getStateForItem and the mosaic getStateForExport
resolve in the order per-image override cache, then broadcast rule, then a
fallback built from the current editing state (for crop, the built-in centered
default only when no image is loaded); the watermark batch export instead
applies the broadcast rule first, then the per-image cache overlaid with the
active image rule, then the active image rule. -/
theorem rule_resolution_amended :
    (∀ cache applied info rect mv crw crh it s, List.lookup it.id cache = some s →
        Crop.getStateForItem cache applied info rect mv crw crh it = s)
  ∧ (∀ cache applied info rect mv crw crh it r, List.lookup it.id cache = none →
        applied = some r →
        Crop.getStateForItem cache applied info rect mv crw crh it
          = Crop.buildStateFromRule r it.info)
  ∧ (∀ cache info rect mv crw crh it r, List.lookup it.id cache = none →
        Crop.buildRuleFromCurrent info rect mv crw crh = some r →
        Crop.getStateForItem cache none info rect mv crw crh it
          = Crop.buildStateFromRule r it.info)
  ∧ (∀ cache rect mv crw crh it, List.lookup it.id cache = none →
        Crop.getStateForItem cache none none rect mv crw crh it
          = { modeValue := "free", customRatioW := none, customRatioH := none,
              rect := Crop.initRect it.info.width it.info.height })
  ∧ (∀ cache applied et st bl br m id s, List.lookup id cache = some s →
        Mosaic.getStateForExport cache applied et st bl br m id = s)
  ∧ (∀ cache r et st bl br m id, List.lookup id cache = none →
        Mosaic.getStateForExport cache (some r) et st bl br m id
          = { effectType := r.effectType, strength := r.strength,
              blurStrength := r.blurStrength, brushSize := r.brushSize,
              mode := r.mode, maskData := none, maskWidth := 0, maskHeight := 0 })
  ∧ (∀ cache et st bl br m id, List.lookup id cache = none →
        Mosaic.getStateForExport cache none et st bl br m id
          = { effectType := et, strength := st, blurStrength := bl,
              brushSize := br, mode := m, maskData := none,
              maskWidth := 0, maskHeight := 0 })
  ∧ (∀ (cache : List (String × Watermark.AppliedRule)) r aid act id,
        Watermark.exportRuleForItem (some r) cache aid act id = r)
  ∧ (∀ (cache : List (String × Watermark.AppliedRule)) aid act id,
        Watermark.exportRuleForItem none cache aid act id
          = (if aid = some id then some act else List.lookup id cache).getD act) := by
  refine ⟨?_, ?_, ?_, ?_, ?_, ?_, ?_, ?_, ?_⟩
  · intro cache applied info rect mv crw crh it s hs
    unfold Crop.getStateForItem
    rw [hs]
  · intro cache applied info rect mv crw crh it r hn hr
    unfold Crop.getStateForItem
    rw [hn, hr]
  · intro cache info rect mv crw crh it r hn hr
    unfold Crop.getStateForItem
    rw [hn, hr]
  · intro cache rect mv crw crh it hn
    unfold Crop.getStateForItem
    rw [hn]
    rfl
  · intro cache applied et st bl br m id s hs
    unfold Mosaic.getStateForExport
    rw [hs]
  · intro cache r et st bl br m id hn
    unfold Mosaic.getStateForExport
    rw [hn]
  · intro cache et st bl br m id hn
    unfold Mosaic.getStateForExport
    rw [hn]
  · intro cache r aid act id
    rfl
  · intro cache aid act id
    rfl

/-- Closed witness for the C7 amended theorem: a cache hit on the crop side
returns the cached state. -/
theorem rule_resolution_amended_witness :
    (List.lookup "a"
        [("a", ({ modeValue := "free", customRatioW := none, customRatioH := none,
                  rect := ⟨1, 2, 48, 48⟩ } : Crop.SavedCropState))]
      = some { modeValue := "free", customRatioW := none, customRatioH := none,
               rect := ⟨1, 2, 48, 48⟩ })
    ∧ Crop.getStateForItem
        [("a", { modeValue := "free", customRatioW := none, customRatioH := none,
                 rect := ⟨1, 2, 48, 48⟩ })]
        none none ⟨0, 0, 0, 0⟩ "free" none none ⟨"a", ⟨"u", 100, 100, "n"⟩⟩
      = { modeValue := "free", customRatioW := none, customRatioH := none,
          rect := ⟨1, 2, 48, 48⟩ } :=
  ⟨rfl, rule_resolution_amended.1 _ none none ⟨0, 0, 0, 0⟩ "free" none none
    ⟨"a", ⟨"u", 100, 100, "n"⟩⟩ _ rfl⟩

/-- C8 counterexample: removing the only image from the crop tool (and from
the watermark tool) leaves that image id cached in the per-image rule cache.
The crop page onRemove is the bare removeOne; so is the watermark one. -/
theorem cache_purge_counterexample :
    ((Crop.onRemoveCrop
        [("a", { modeValue := "free", customRatioW := none, customRatioH := none,
                 rect := ⟨0, 0, 48, 48⟩ })]
        [⟨"a", ⟨"u", 100, 100, "n"⟩⟩] "a" "a").1.lookup "a"
      = some { modeValue := "free", customRatioW := none, customRatioH := none,
               rect := ⟨0, 0, 48, 48⟩ })
    ∧ ((Watermark.onRemoveWatermark [("a", ⟨5⟩)]
          [⟨"a", ⟨"u", 100, 100, "n"⟩⟩] "a" "a").1.lookup "a"
        = some (⟨5⟩ : Watermark.AppliedRule)) :=
  ⟨rfl, rfl⟩

/-- List.lookup finds nothing for a key filtered out of a string-keyed list. -/
theorem lookup_removeKey {α : Type} (cache : List (String × α)) (id : String) :
    (removeKey cache id).lookup id = none := by
  induction cache with
  | nil => rfl
  | cons p t ihp =>
    rcases p with ⟨k, v⟩
    by_cases h : k == id
    · simpa [removeKey, List.filter_cons, h] using ihp
    · simp only [removeKey, List.filter_cons, h, Bool.not_false, if_true] at ihp ⊢
      simp only [List.lookup]
      rw [show (id == k) = false from ?_]
      · exact ihp
      · rw [beq_eq_false_iff_ne]
        intro he
        subst he
        simp at h

/-- C8 amended: of the three overlay tools only the mask/mosaic page purges
the removed image id from its per-image cache; the crop and watermark pages
pass the bare removeOne as onRemove and leave their caches unchanged, so the
removed id stays cached there until a full reselect. -/
theorem cache_purge_amended :
    (∀ (cache : List (String × Mosaic.PerImageState)) items aid id,
        ((Mosaic.onRemoveMosaic cache items aid id).1).lookup id = none)
  ∧ (∀ (cache : List (String × Crop.SavedCropState)) items aid id,
        (Crop.onRemoveCrop cache items aid id).1 = cache)
  ∧ (∀ (cache : List (String × Watermark.AppliedRule)) items aid id,
        (Watermark.onRemoveWatermark cache items aid id).1 = cache) := by
  refine ⟨?_, ?_, ?_⟩
  · intro cache items aid id
    exact lookup_removeKey cache id
  · intro cache items aid id
    rfl
  · intro cache items aid id
    rfl

/-- When the normalized input rect has positive sides and the ratio is
positive, applyRatio produces a rect with w = h * ratio exactly, for every
handle except move. -/
theorem applyRatio_keeps_ratio (r : Crop.CropRect) (handle : Crop.Handle) (ρ : ℚ)
    (hρ : 0 < ρ) (hmv : handle ≠ Crop.Handle.move)
    (hw : 0 < (Crop.rectNormalize r).w) (hh : 0 < (Crop.rectNormalize r).h) :
    (Crop.applyRatio r handle ρ).w = (Crop.applyRatio r handle ρ).h * ρ := by
  unfold Crop.applyRatio
  rw [if_neg (by simp only [not_or, not_le]; exact ⟨hw, hh⟩)]
  cases handle
  case move => exact absurd rfl hmv
  case n => dsimp only
  case s => dsimp only
  case e =>
    dsimp only
    rw [div_mul_cancel₀ _ hρ.ne']
  case w =>
    dsimp only
    rw [div_mul_cancel₀ _ hρ.ne']
  all_goals (
    dsimp only
    by_cases hA : |(Crop.rectNormalize r).w - (Crop.rectNormalize r).h * ρ|
        < |(Crop.rectNormalize r).h - (Crop.rectNormalize r).w / ρ|
    · rw [if_pos hA, if_pos hA]
    · rw [if_neg hA, if_neg hA]
      rw [div_mul_cancel₀ _ hρ.ne'])

/-- clampEffectiveRect is the identity on a rect that already satisfies the
effective-space invariant. -/
theorem clampEffectiveRect_eq_self (e : Crop.CropRect) (v : ViewState)
    (he : Crop.EffInv e v) : Crop.clampEffectiveRect e v = e := by
  obtain ⟨h1, h2, h3, h4, h5, h6⟩ := he
  have hms : (0:ℚ) < Crop.MIN_SIZE := by norm_num [Crop.MIN_SIZE]
  have hw0 : (0:ℚ) ≤ e.w := by linarith
  have hh0 : (0:ℚ) ≤ e.h := by linarith
  unfold Crop.clampEffectiveRect
  dsimp only
  rw [Crop.rectNormalize_eq_self e hw0 hh0]
  have hwc : Crop.clamp e.w Crop.MIN_SIZE v.effectiveWidth = e.w :=
    Crop.clamp_eq_self _ _ _ h5 (by linarith)
  have hhc : Crop.clamp e.h Crop.MIN_SIZE v.effectiveHeight = e.h :=
    Crop.clamp_eq_self _ _ _ h6 (by linarith)
  rw [hwc, hhc,
    Crop.clamp_eq_self e.x 0 (v.effectiveWidth - e.w) h1 (by linarith),
    Crop.clamp_eq_self e.y 0 (v.effectiveHeight - e.h) h2 (by linarith)]

/-- The sides of the bounding box obtained by mapping an effective-space rect
back to original space: unchanged at rotations 0 and 180, swapped at 90
and 270. -/
theorem rectE2O_dims (e : Crop.CropRect) (v : ViewState)
    (hw0 : 0 ≤ e.w) (hh0 : 0 ≤ e.h) :
    ((v.rotation = Rot.r0 ∨ v.rotation = Rot.r180) →
        (Crop.rectNormalize (Crop.rectEffectiveToOriginal e v)).w = e.w
      ∧ (Crop.rectNormalize (Crop.rectEffectiveToOriginal e v)).h = e.h)
  ∧ ((v.rotation = Rot.r90 ∨ v.rotation = Rot.r270) →
        (Crop.rectNormalize (Crop.rectEffectiveToOriginal e v)).w = e.h
      ∧ (Crop.rectNormalize (Crop.rectEffectiveToOriginal e v)).h = e.w) := by
  have hnn := Crop.rectE2O_nonneg e v
  rw [Crop.rectNormalize_eq_self _ hnn.1 hnn.2]
  unfold Crop.rectEffectiveToOriginal Crop.pointEffectiveToOriginal
  cases hrot : v.rotation
  case r0 =>
    refine ⟨fun _ => ?_, fun hr => ?_⟩
    · dsimp only
      simp only [min_self, max_self]
      rw [min_eq_left (by linarith : e.x ≤ e.x + e.w),
        min_eq_left (by linarith : e.y ≤ e.y + e.h),
        max_eq_right (by linarith : e.x ≤ e.x + e.w),
        max_eq_right (by linarith : e.y ≤ e.y + e.h)]
      constructor <;> ring
    · rcases hr with hr | hr <;> exact absurd hr (by decide)
  case r180 =>
    refine ⟨fun _ => ?_, fun hr => ?_⟩
    · dsimp only
      simp only [min_self, max_self]
      rw [min_eq_right (by linarith : v.imageWidth - (e.x + e.w) ≤ v.imageWidth - e.x),
        max_eq_left (by linarith : v.imageWidth - (e.x + e.w) ≤ v.imageWidth - e.x),
        min_eq_right (by linarith : v.imageHeight - (e.y + e.h) ≤ v.imageHeight - e.y),
        max_eq_left (by linarith : v.imageHeight - (e.y + e.h) ≤ v.imageHeight - e.y)]
      constructor <;> ring
    · rcases hr with hr | hr <;> exact absurd hr (by decide)
  case r90 =>
    refine ⟨fun hr => ?_, fun _ => ?_⟩
    · rcases hr with hr | hr <;> exact absurd hr (by decide)
    · dsimp only
      simp only [min_self, max_self]
      rw [min_eq_left (by linarith : e.y ≤ e.y + e.h),
        max_eq_right (by linarith : e.y ≤ e.y + e.h),
        min_eq_right (by linarith :
          v.imageHeight - (e.x + e.w) ≤ v.imageHeight - e.x),
        max_eq_left (by linarith :
          v.imageHeight - (e.x + e.w) ≤ v.imageHeight - e.x)]
      constructor <;> ring
  case r270 =>
    refine ⟨fun hr => ?_, fun _ => ?_⟩
    · rcases hr with hr | hr <;> exact absurd hr (by decide)
    · dsimp only
      simp only [min_self, max_self]
      rw [min_eq_right (by linarith :
          v.imageWidth - (e.y + e.h) ≤ v.imageWidth - e.y),
        max_eq_left (by linarith :
          v.imageWidth - (e.y + e.h) ≤ v.imageWidth - e.y),
        min_eq_left (by linarith : e.x ≤ e.x + e.w),
        max_eq_right (by linarith : e.x ≤ e.x + e.w)]
      constructor <;> ring

/-- The final original-space clamps of onMove never move an in-bounds rect, so
onMove returns exactly the normalized back-mapped rect. -/
theorem onMoveRect_eq (rect : Crop.CropRect) (inp : Crop.DragInput) (iw ih : ℚ)
    (h24w : 24 ≤ iw) (h24h : 24 ≤ ih) (hvc : Crop.ViewConsistent inp.view iw ih) :
    Crop.onMoveRect rect inp iw ih
      = Crop.rectNormalize (Crop.rectEffectiveToOriginal
          (Crop.clampEffectiveRect (Crop.dragNextRatio rect inp) inp.view) inp.view) := by
  have hms : Crop.MIN_SIZE = (24:ℚ) := rfl
  have hW : Crop.MIN_SIZE ≤ inp.view.effectiveWidth := by
    rw [hvc.2.2.1, hms]
    unfold Viewer.effectiveW
    cases inp.view.rotation <;> simp [Viewer.isQuarterTurn] <;> linarith
  have hH : Crop.MIN_SIZE ≤ inp.view.effectiveHeight := by
    rw [hvc.2.2.2, hms]
    unfold Viewer.effectiveH
    cases inp.view.rotation <;> simp [Viewer.isQuarterTurn] <;> linarith
  have heff := Crop.clampEffectiveRect_inv (Crop.dragNextRatio rect inp) inp.view hW hH
  obtain ⟨h1, h2, h3, h4, h5, h6⟩ := Crop.rectE2O_inv _ inp.view iw ih hvc heff
  unfold Crop.onMoveRect
  dsimp only
  rw [Crop.clamp_eq_self _ _ _ h1 (by rw [hms]; linarith),
    Crop.clamp_eq_self _ _ _ h2 (by rw [hms]; linarith),
    Crop.clamp_eq_self _ _ _ h5 (by linarith),
    Crop.clamp_eq_self _ _ _ h6 (by linarith)]

/-- C4 amended: with an active ratio constraint (fixed ratio or circular mode,
target ratio positive), after a single non-move handle drag whose dragged rect
has positive sides and whose ratio-adjusted rect already lies within the
effective bounds at MIN_SIZE or larger (so bounds clamping leaves it alone),
the resulting crop rect keeps the target ratio exactly - as w / h in original
pixel space at rotations 0 and 180, and as h / w at rotations 90 and 270 (at
those rotations the original-space sides are the swapped effective sides). In
particular the difference from the target ratio is below 1/1000. -/
theorem ratioLock_amended (rect : Crop.CropRect) (inp : Crop.DragInput) (iw ih ρ : ℚ)
    (h24w : 24 ≤ iw) (h24h : 24 ≤ ih) (hvc : Crop.ViewConsistent inp.view iw ih)
    (hρ : inp.modeRatio = some ρ) (hρpos : 0 < ρ)
    (hmv : inp.handle ≠ Crop.Handle.move)
    (hw : 0 < (Crop.rectNormalize (Crop.dragNext rect inp)).w)
    (hh : 0 < (Crop.rectNormalize (Crop.dragNext rect inp)).h)
    (hin : Crop.EffInv (Crop.dragNextRatio rect inp) inp.view) :
    ((inp.view.rotation = Rot.r0 ∨ inp.view.rotation = Rot.r180) →
        |(Crop.onMoveRect rect inp iw ih).w / (Crop.onMoveRect rect inp iw ih).h - ρ|
          < 1/1000)
  ∧ ((inp.view.rotation = Rot.r90 ∨ inp.view.rotation = Rot.r270) →
        |(Crop.onMoveRect rect inp iw ih).h / (Crop.onMoveRect rect inp iw ih).w - ρ|
          < 1/1000) := by
  have hdnr : Crop.dragNextRatio rect inp
      = Crop.applyRatio (Crop.dragNext rect inp) inp.handle ρ := by
    unfold Crop.dragNextRatio
    rw [hρ]
    dsimp only
    rw [if_pos ⟨hρpos.ne', hmv⟩]
  have hratio : (Crop.dragNextRatio rect inp).w = (Crop.dragNextRatio rect inp).h * ρ := by
    rw [hdnr]
    exact applyRatio_keeps_ratio _ _ _ hρpos hmv hw hh
  have hclamp := clampEffectiveRect_eq_self _ _ hin
  have heq := onMoveRect_eq rect inp iw ih h24w h24h hvc
  rw [hclamp] at heq
  obtain ⟨_, _, _, _, hMw, hMh⟩ := hin
  have hms : (0:ℚ) < Crop.MIN_SIZE := by norm_num [Crop.MIN_SIZE]
  have hwpos : 0 < (Crop.dragNextRatio rect inp).w := by linarith
  have hhpos : 0 < (Crop.dragNextRatio rect inp).h := by linarith
  have hdims := rectE2O_dims (Crop.dragNextRatio rect inp) inp.view
    (le_of_lt hwpos) (le_of_lt hhpos)
  constructor
  · intro hr
    obtain ⟨hwEq, hhEq⟩ := hdims.1 hr
    rw [heq, hwEq, hhEq, hratio, mul_comm, mul_div_assoc, div_self hhpos.ne', mul_one]
    norm_num
  · intro hr
    obtain ⟨hwEq, hhEq⟩ := hdims.2 hr
    rw [heq, hwEq, hhEq, hratio, mul_comm, mul_div_assoc, div_self hhpos.ne', mul_one]
    norm_num

/-- C4 counterexample: a single east-handle drag far to the right under a
fixed 4:1 ratio on a 100 by 100 unrotated image; bounds clamping reshapes the
ratio-adjusted rect to the full square, so the resulting rect has ratio 1, not
within 1/1000 of the target ratio 4. -/
theorem ratioLock_counterexample :
    Crop.onMoveRect ⟨0, 0, 80, 24⟩ c4BadInp 100 100 = ⟨0, 0, 100, 100⟩
      ∧ ¬ |(Crop.onMoveRect ⟨0, 0, 80, 24⟩ c4BadInp 100 100).w
            / (Crop.onMoveRect ⟨0, 0, 80, 24⟩ c4BadInp 100 100).h - 4| < 1/1000 := by
  have hstart : Crop.dragStartEff ⟨0, 0, 80, 24⟩ c4BadInp = ⟨0, 0, 80, 24⟩ := by
    norm_num [Crop.dragStartEff, Crop.clampEffectiveRect, Crop.rectNormalize,
      Crop.rectOriginalToEffective, Crop.pointOriginalToEffective, Crop.clamp,
      Crop.MIN_SIZE, c4BadInp, c4View]
  have hnext : Crop.dragNext ⟨0, 0, 80, 24⟩ c4BadInp = ⟨0, 0, 480, 24⟩ := by
    unfold Crop.dragNext
    rw [hstart]
    norm_num [Crop.screenToEffectivePoint, Crop.handleDelta, c4BadInp, c4View]
  have hdnr : Crop.dragNextRatio ⟨0, 0, 80, 24⟩ c4BadInp = ⟨0, -48, 480, 120⟩ := by
    unfold Crop.dragNextRatio
    rw [show c4BadInp.modeRatio = some 4 from rfl]
    dsimp only
    rw [if_pos ⟨by norm_num, by decide⟩, hnext]
    norm_num [Crop.applyRatio, Crop.rectNormalize, c4BadInp]
  have hclamped : Crop.clampEffectiveRect ⟨0, -48, 480, 120⟩ c4BadInp.view
      = ⟨0, 0, 100, 100⟩ := by
    norm_num [Crop.clampEffectiveRect, Crop.rectNormalize, Crop.clamp,
      Crop.MIN_SIZE, c4BadInp, c4View]
  have h : Crop.onMoveRect ⟨0, 0, 80, 24⟩ c4BadInp 100 100 = ⟨0, 0, 100, 100⟩ := by
    unfold Crop.onMoveRect
    dsimp only
    rw [hdnr, hclamped]
    norm_num [Crop.rectEffectiveToOriginal, Crop.pointEffectiveToOriginal,
      Crop.rectNormalize, Crop.clamp, Crop.MIN_SIZE, c4BadInp, c4View]
  rw [h]
  norm_num

/-- Closed witness for the C4 amended theorem: a southeast-corner drag in
circular mode (ratio 1) on a 100 by 100 unrotated image, growing the start
square from 48 to 72 pixels; the result keeps ratio 1 exactly. -/
theorem ratioLock_amended_witness :
    ((24:ℚ) ≤ 100
      ∧ Crop.ViewConsistent c4GoodInp.view 100 100
      ∧ c4GoodInp.modeRatio = some 1
      ∧ (0:ℚ) < 1
      ∧ c4GoodInp.handle ≠ Crop.Handle.move
      ∧ 0 < (Crop.rectNormalize (Crop.dragNext ⟨0, 0, 48, 48⟩ c4GoodInp)).w
      ∧ 0 < (Crop.rectNormalize (Crop.dragNext ⟨0, 0, 48, 48⟩ c4GoodInp)).h
      ∧ Crop.EffInv (Crop.dragNextRatio ⟨0, 0, 48, 48⟩ c4GoodInp) c4GoodInp.view)
    ∧ |(Crop.onMoveRect ⟨0, 0, 48, 48⟩ c4GoodInp 100 100).w
        / (Crop.onMoveRect ⟨0, 0, 48, 48⟩ c4GoodInp 100 100).h - 1| < 1/1000 := by
  have hvc : Crop.ViewConsistent c4GoodInp.view 100 100 := by
    refine ⟨rfl, rfl, ?_, ?_⟩
    · norm_num [c4GoodInp, c4View, Viewer.effectiveW, Viewer.isQuarterTurn]
    · norm_num [c4GoodInp, c4View, Viewer.effectiveH, Viewer.isQuarterTurn]
  have hnext : Crop.dragNext ⟨0, 0, 48, 48⟩ c4GoodInp = ⟨0, 0, 72, 72⟩ := by
    norm_num [Crop.dragNext, Crop.dragStartEff, Crop.clampEffectiveRect,
      Crop.rectNormalize, Crop.rectOriginalToEffective, Crop.pointOriginalToEffective,
      Crop.screenToEffectivePoint, Crop.handleDelta, Crop.clamp, Crop.MIN_SIZE,
      c4GoodInp, c4View]
  have hnorm : Crop.rectNormalize (⟨0, 0, 72, 72⟩ : Crop.CropRect) = ⟨0, 0, 72, 72⟩ := by
    norm_num [Crop.rectNormalize]
  have hdnr : Crop.dragNextRatio ⟨0, 0, 48, 48⟩ c4GoodInp = ⟨0, 0, 72, 72⟩ := by
    have hmr : c4GoodInp.modeRatio = some 1 := rfl
    unfold Crop.dragNextRatio
    rw [hmr]
    dsimp only
    rw [if_pos ⟨by norm_num, by decide⟩, hnext]
    norm_num [Crop.applyRatio, Crop.rectNormalize, c4GoodInp]
  have hin : Crop.EffInv (Crop.dragNextRatio ⟨0, 0, 48, 48⟩ c4GoodInp) c4GoodInp.view := by
    rw [hdnr]
    refine ⟨by norm_num, by norm_num, ?_, ?_, ?_, ?_⟩ <;>
      norm_num [c4GoodInp, c4View, Crop.MIN_SIZE]
  refine ⟨⟨by norm_num, hvc, rfl, by norm_num, by decide, ?_, ?_, hin⟩, ?_⟩
  · rw [hnext, hnorm]; norm_num
  · rw [hnext, hnorm]; norm_num
  · exact (ratioLock_amended ⟨0, 0, 48, 48⟩ c4GoodInp 100 100 1 (by norm_num) (by norm_num)
      hvc rfl (by norm_num) (by decide)
      (by rw [hnext, hnorm]; norm_num) (by rw [hnext, hnorm]; norm_num) hin).1
      (Or.inl rfl)

end ImgTools
